import Mathlib

/-!
# x264 CBR transcoder: decode stage and pipeline driver

A shallow embedding of `src/main.cpp`.  The FFmpeg library is an external
collaborator: every library call is a field of `Lib`, a record of functions
over an arbitrary world state `σ`.  The program's own control flow
(`get_next_decoder_frame`, `open_decoder_context`, `open_encoder_context`,
`main`) is translated statement by statement, and every library call is
appended to a chronological log of `Event`s so that statements such as
"`av_read_frame` is not called" are properties of the log.

Loops that are `while (true)` in the source take a fuel argument; when the fuel
runs out the model reports that the loop is still running and hands back the
state reached so far.
-/

namespace X264Cbr

/-! ## Library constants (from the FFmpeg and POSIX headers) -/

/-- POSIX errno value of EAGAIN on Linux. -/
def EAGAIN : Int := 11

/-- POSIX errno value of EFAULT. -/
def EFAULT : Int := 14

/-- POSIX errno value of EINVAL. -/
def EINVAL : Int := 22

/-- The libavutil macro AVERROR(e), which negates a POSIX error number. -/
def AVERROR (e : Int) : Int := -e

/-- The libavutil constant AVERROR_EOF, minus the tag made of the bytes 'E','O','F',' '. -/
def AVERROR_EOF : Int := -541478725

/-- The libavutil constant AV_NOPTS_VALUE, the int64 bit pattern 0x8000000000000000. -/
def AV_NOPTS_VALUE : Int := -9223372036854775808

/-- The libavutil enumerator AV_PICTURE_TYPE_NONE. -/
def AV_PICTURE_TYPE_NONE : Int := 0

/-- The libavformat flag AVFMT_NOFILE. -/
def AVFMT_NOFILE : Nat := 1

/-- The libavformat flag AVFMT_GLOBALHEADER. -/
def AVFMT_GLOBALHEADER : Nat := 64

/-- The libavcodec flag AV_CODEC_FLAG_GLOBAL_HEADER (bit 22). -/
def AV_CODEC_FLAG_GLOBAL_HEADER : Nat := 4194304

/-- The libavcodec flag AV_CODEC_FLAG_INTERLACED_DCT (bit 18). -/
def AV_CODEC_FLAG_INTERLACED_DCT : Nat := 262144

/-- The libavcodec flag AV_CODEC_FLAG_INTERLACED_ME (bit 29). -/
def AV_CODEC_FLAG_INTERLACED_ME : Nat := 536870912

/-- The libavcodec flag AV_CODEC_FLAG_CLOSED_GOP (bit 31). -/
def AV_CODEC_FLAG_CLOSED_GOP : Nat := 2147483648

/-- Two's complement reduction of an integer into the range of int64_t. -/
def wrapInt64 (x : Int) : Int := (x + 2 ^ 63) % 2 ^ 64 - 2 ^ 63

/-! ## Data model -/

/-- The libavutil enum AVMediaType, restricted to the kinds a container stream can have. -/
inductive AVMediaType
  | AVMEDIA_TYPE_UNKNOWN
  | AVMEDIA_TYPE_VIDEO
  | AVMEDIA_TYPE_AUDIO
  | AVMEDIA_TYPE_DATA
  | AVMEDIA_TYPE_SUBTITLE
  | AVMEDIA_TYPE_ATTACHMENT
deriving DecidableEq, Repr

/-- A rational number as the pair libavutil stores. -/
structure AVRational where
  num : Int
  den : Int
deriving DecidableEq, Repr

/-- A compressed unit: the fields of AVPacket the program reads or that identify it. -/
structure AVPacket where
  /-- Identity of the payload buffer. -/
  data : Nat
  stream_index : Int
  pts : Int
  dts : Int
deriving DecidableEq, Repr

/-- A raw frame: the fields of AVFrame the program writes, and the identity of its buffer. -/
structure AVFrame where
  /-- Identity of the picture buffer. -/
  data : Nat
  pts : Int
  pkt_dts : Int
  pkt_pos : Int
  pkt_size : Int
  pkt_duration : Int
  key_frame : Int
  pict_type : Int
deriving DecidableEq, Repr

/-- A stream of a container: its media kind and codec identifier. -/
structure AVStream where
  id : Int
  codec_type : AVMediaType
  codec_id : Nat
deriving DecidableEq, Repr

/-- A demuxer or muxer context: its streams and the two flag words main tests. -/
structure AVFormatContext where
  streams : List AVStream
  /-- The field oformat->flags of an output context. -/
  oformat_flags : Nat
  flags : Nat
deriving DecidableEq, Repr

/-- A codec configuration: the fields of AVCodecContext the program writes or reads. -/
structure AVCodecContext where
  codec_id : Nat
  width : Int
  height : Int
  pix_fmt : Int
  gop_size : Int
  bit_rate : Int
  rc_max_rate : Int
  rc_buffer_size : Int
  rc_initial_buffer_occupancy : Int
  field_order : Int
  flags : Nat
  time_base : AVRational
  framerate : AVRational
  sample_aspect_ratio : AVRational
deriving DecidableEq, Repr

/-- One observable action of the program: a library call with its arguments and result,
the usage message, or a read of an argv slot. -/
inductive Event
  | usage_message
  | read_argv (i : Nat)
  | avformat_open_input (path : String) (ret : Int)
  | avformat_alloc_output_context2 (path : String) (ret : Int)
  | avio_open (path : String) (ret : Int)
  | av_find_best_stream (type : AVMediaType) (wanted : Int) (ret : Int)
  | avcodec_find_decoder (codec_id : Nat) (found : Bool)
  | avcodec_find_encoder_by_name (name : String) (found : Bool)
  | avformat_new_stream (ok : Bool)
  | avcodec_alloc_context3 (codec_id : Nat) (ok : Bool)
  | avcodec_parameters_to_context (ret : Int)
  | avcodec_parameters_from_context (ret : Int)
  | avcodec_open2 (ret : Int)
  | avformat_write_header (ret : Int)
  | av_read_frame (ret : Int) (pkt : AVPacket)
  | av_packet_unref (pkt : AVPacket)
  | avcodec_send_packet (pkt : Option AVPacket) (ret : Int)
  | avcodec_receive_frame (ret : Int) (frame : AVFrame)
  | avcodec_send_frame (frame : Option AVFrame) (ret : Int)
  | avcodec_receive_packet (ret : Int) (pkt : AVPacket)
  | av_interleaved_write_frame (pkt : AVPacket) (ret : Int)
  | av_write_trailer
  | avio_closep
deriving DecidableEq, Repr

/-- The FFmpeg calls the program makes, as functions over a world state. A call that
fills an out-parameter returns the new contents beside the return code. -/
structure Lib (σ : Type) where
  avformat_open_input : String → σ → Int × AVFormatContext × σ
  avformat_alloc_output_context2 : String → σ → Int × AVFormatContext × σ
  avio_open : String → σ → Int × σ
  av_find_best_stream : AVFormatContext → AVMediaType → Int → σ → Int
  avcodec_find_decoder : Nat → σ → Bool
  avcodec_find_encoder_by_name : String → σ → Option Nat
  avformat_new_stream : AVFormatContext → σ → Option AVStream × σ
  avcodec_alloc_context3 : Nat → σ → Option AVCodecContext × σ
  avcodec_parameters_to_context : AVCodecContext → AVStream → σ → Int × AVCodecContext × σ
  avcodec_parameters_from_context : AVCodecContext → σ → Int × σ
  avcodec_open2 : AVCodecContext → σ → Int × σ
  avformat_write_header : σ → Int × σ
  /-- Time base the muxer gave the output stream. -/
  stream_time_base : σ → AVRational
  av_read_frame : σ → Int × AVPacket × σ
  avcodec_send_packet : Option AVPacket → σ → Int × σ
  avcodec_receive_frame : σ → Int × AVFrame × σ
  avcodec_send_frame : Option AVFrame → σ → Int × σ
  avcodec_receive_packet : σ → Int × AVPacket × σ
  av_packet_rescale_ts : AVPacket → AVRational → AVRational → AVPacket
  av_interleaved_write_frame : AVPacket → σ → Int × σ
  av_write_trailer : σ → σ
  avio_closep : σ → σ

/-- What av_packet_unref leaves in a packet: no payload, default fields. -/
def blankPacket : AVPacket :=
  { data := 0, stream_index := 0, pts := AV_NOPTS_VALUE, dts := AV_NOPTS_VALUE }

/-! ## get_next_decoder_frame (main.cpp lines 320-417) -/

/-- The world, the log, and the three in/out parameters of get_next_decoder_frame. -/
structure DecoderState (σ : Type) where
  world : σ
  log : List Event
  pPkt : AVPacket
  bPendingPkt : Bool
  inout_apFrameOut : Option AVFrame

/-- How the first half of one loop iteration of get_next_decoder_frame ends. -/
inductive SubmitFlow
  /-- The statement `continue` after a packet of another stream. -/
  | skip
  /-- The statement `return retInner`. -/
  | ret (code : Int)
  /-- Fall through to step 2, receive frame. -/
  | receive
deriving DecidableEq, Repr

/-- Lines 329-364: read a packet unless one is pending, then submit it. -/
def submit_packet {σ : Type} (L : Lib σ) (nStreamIdx : Int) (s : DecoderState σ) :
    SubmitFlow × DecoderState σ :=
  let rd := L.av_read_frame s.world
  -- int ret = bPendingPkt ? 0 : av_read_frame(pFmtCtxIn, pPkt);
  let ret : Int := if s.bPendingPkt then 0 else rd.1
  let s1 : DecoderState σ :=
    if s.bPendingPkt then s
    else { s with world := rd.2.2, pPkt := rd.2.1,
                  log := s.log ++ [Event.av_read_frame rd.1 rd.2.1] }
  if ret < 0 then
    -- avcodec_send_packet(pCdcCtxIn, nullptr);
    let sp := L.avcodec_send_packet none s1.world
    (SubmitFlow.receive,
      { s1 with world := sp.2, log := s1.log ++ [Event.avcodec_send_packet none sp.1] })
  else if (!s1.bPendingPkt) && s1.pPkt.stream_index != nStreamIdx then
    -- av_packet_unref(pPkt); continue;
    (SubmitFlow.skip,
      { s1 with pPkt := blankPacket, log := s1.log ++ [Event.av_packet_unref s1.pPkt] })
  else
    -- if (int retInner = avcodec_send_packet(pCdcCtxIn, pPkt); ret != 0)
    let sp := L.avcodec_send_packet (some s1.pPkt) s1.world
    let retInner := sp.1
    let s2 : DecoderState σ :=
      { s1 with world := sp.2,
                log := s1.log ++ [Event.avcodec_send_packet (some s1.pPkt) retInner] }
    if ret != 0 then
      if retInner = AVERROR EAGAIN then
        (SubmitFlow.receive, { s2 with bPendingPkt := true })
      else
        (SubmitFlow.ret retInner, s2)
    else
      (SubmitFlow.receive, { s2 with bPendingPkt := false })

/-- Lines 407-411: the fields get_next_decoder_frame overwrites in a received frame. -/
def clear_frame_timing (f : AVFrame) : AVFrame :=
  { f with pts := AV_NOPTS_VALUE, pkt_dts := AV_NOPTS_VALUE, pkt_pos := -1,
           pkt_size := -1, pkt_duration := 0 }

/-- Lines 366-415: ask the decoder for one frame. The result none stands for
"go around again". The frame buffer av_frame_alloc provides is taken to exist. -/
def receive_frame {σ : Type} (L : Lib σ) (s : DecoderState σ) :
    Option Int × DecoderState σ :=
  let rf := L.avcodec_receive_frame s.world
  let ret := rf.1
  let s1 : DecoderState σ :=
    { s with world := rf.2.2, log := s.log ++ [Event.avcodec_receive_frame ret rf.2.1] }
  if ret != 0 then
    if ret = AVERROR_EOF then (some ret, s1)
    else if ret = AVERROR EAGAIN then (none, s1)
    else (some (AVERROR EFAULT), s1)
  else
    (some 0, { s1 with inout_apFrameOut := some (clear_frame_timing rf.2.1) })

/-- One iteration of the loop of get_next_decoder_frame (lines 329-415); none stands
for reaching the end of the body or `continue`. -/
def decoder_iteration {σ : Type} (L : Lib σ) (nStreamIdx : Int) (s : DecoderState σ) :
    Option Int × DecoderState σ :=
  match submit_packet L nStreamIdx s with
  | (SubmitFlow.skip, s1) => (none, s1)
  | (SubmitFlow.ret code, s1) => (some code, s1)
  | (SubmitFlow.receive, s1) => receive_frame L s1

/-- The function get_next_decoder_frame: iterate until an iteration returns. The
result none means the loop is still running when the fuel is used up. -/
def get_next_decoder_frame {σ : Type} (L : Lib σ) (nStreamIdx : Int) :
    Nat → DecoderState σ → Option Int × DecoderState σ
  | 0, s => (none, s)
  | fuel + 1, s =>
    match decoder_iteration L nStreamIdx s with
    | (some code, s1) => (some code, s1)
    | (none, s1) => get_next_decoder_frame L nStreamIdx fuel s1

/-! ## Opening the containers and the codecs (main.cpp lines 32-317) -/

/-- The world and the log, while the pipeline is being set up. -/
structure Sys (σ : Type) where
  world : σ
  log : List Event

/-- The function open_input_format_context: the flag returned and out_apFmtCtx. -/
def open_input_format_context {σ : Type} (L : Lib σ) (strPath : String) (s : Sys σ) :
    Bool × Option AVFormatContext × Sys σ :=
  let r := L.avformat_open_input strPath s.world
  let s1 : Sys σ :=
    { world := r.2.2, log := s.log ++ [Event.avformat_open_input strPath r.1] }
  if r.1 < 0 then (false, none, s1) else (true, some r.2.1, s1)

/-- The function open_output_format_context: the flag returned and out_apFmtCtx. -/
def open_output_format_context {σ : Type} (L : Lib σ) (strMediaPath : String) (s : Sys σ) :
    Bool × Option AVFormatContext × Sys σ :=
  let r := L.avformat_alloc_output_context2 strMediaPath s.world
  let s1 : Sys σ :=
    { world := r.2.2, log := s.log ++ [Event.avformat_alloc_output_context2 strMediaPath r.1] }
  if r.1 < 0 then (false, none, s1) else (true, some r.2.1, s1)

/-- What open_decoder_context hands back: the flag returned and the two in/out
parameters as they are on return. -/
structure DecoderOpen (σ : Type) where
  ok : Bool
  inout_nStreamidx : Int
  inout_apCdcCtx : Option AVCodecContext
  sys : Sys σ

/-- The function open_decoder_context (lines 97-216). The result none stands for the
undefined behaviour of indexing the stream array outside its bounds at line 130,
which happens only if the stream finder returns an index the container does not have. -/
def open_decoder_context {σ : Type} (L : Lib σ) (in_pFmtCtx : Option AVFormatContext)
    (in_eMediaType : AVMediaType) (inout_nStreamidx : Int)
    (_inout_apCdcCtx : Option AVCodecContext)
    (fnInitContext : Option (AVCodecContext → Bool × AVCodecContext)) (s : Sys σ) :
    Option (DecoderOpen σ) :=
  let nDesiredIdx : Int := max inout_nStreamidx (-1)
  -- inout_nStreamidx = -1; inout_apCdcCtx.reset();
  match in_pFmtCtx with
  | none => some { ok := false, inout_nStreamidx := -1, inout_apCdcCtx := none, sys := s }
  | some fmt =>
    let ret := L.av_find_best_stream fmt in_eMediaType nDesiredIdx s.world
    let s1 : Sys σ :=
      { s with log := s.log ++ [Event.av_find_best_stream in_eMediaType nDesiredIdx ret] }
    if ret < 0 then
      some { ok := false, inout_nStreamidx := -1, inout_apCdcCtx := none, sys := s1 }
    else
      let stream_index := ret
      match fmt.streams.get? stream_index.toNat with
      | none => none
      | some st =>
        let found := L.avcodec_find_decoder st.codec_id s1.world
        let s2 : Sys σ :=
          { s1 with log := s1.log ++ [Event.avcodec_find_decoder st.codec_id found] }
        if !found then
          some { ok := false, inout_nStreamidx := -1, inout_apCdcCtx := none, sys := s2 }
        else
          let al := L.avcodec_alloc_context3 st.codec_id s2.world
          let s3 : Sys σ :=
            { world := al.2,
              log := s2.log ++ [Event.avcodec_alloc_context3 st.codec_id al.1.isSome] }
          match al.1 with
          | none =>
            some { ok := false, inout_nStreamidx := -1, inout_apCdcCtx := none, sys := s3 }
          | some ctx0 =>
            let pc := L.avcodec_parameters_to_context ctx0 st s3.world
            let s4 : Sys σ :=
              { world := pc.2.2,
                log := s3.log ++ [Event.avcodec_parameters_to_context pc.1] }
            if pc.1 < 0 then
              some { ok := false, inout_nStreamidx := -1, inout_apCdcCtx := none, sys := s4 }
            else
              let init : Bool × AVCodecContext :=
                match fnInitContext with
                | none => (true, pc.2.1)
                | some fn => fn pc.2.1
              if !init.1 then
                some { ok := false, inout_nStreamidx := -1, inout_apCdcCtx := none, sys := s4 }
              else
                let op := L.avcodec_open2 init.2 s4.world
                let s5 : Sys σ :=
                  { world := op.2, log := s4.log ++ [Event.avcodec_open2 op.1] }
                if op.1 < 0 then
                  some { ok := false, inout_nStreamidx := -1, inout_apCdcCtx := none, sys := s5 }
                else
                  some { ok := true, inout_nStreamidx := stream_index,
                         inout_apCdcCtx := some init.2, sys := s5 }

/-- What open_encoder_context hands back: the flag returned, the two in/out parameters
and the output container, which gains a stream. -/
structure EncoderOpen (σ : Type) where
  ok : Bool
  inout_apCdcCtx : Option AVCodecContext
  inout_pStream : Option AVStream
  fmtCtx : Option AVFormatContext
  sys : Sys σ

/-- The function open_encoder_context (lines 219-317). The option dictionary the
callback fills is passed on to the library inside the world and is not modelled. -/
def open_encoder_context {σ : Type} (L : Lib σ) (in_pFmtCtx : Option AVFormatContext)
    (in_strCodecId : String)
    (fnInitContext : Option (AVStream → AVCodecContext → Bool × AVCodecContext))
    (s : Sys σ) : EncoderOpen σ :=
  match in_pFmtCtx with
  | none =>
    { ok := false, inout_apCdcCtx := none, inout_pStream := none, fmtCtx := none, sys := s }
  | some fmt =>
    let pCdc := L.avcodec_find_encoder_by_name in_strCodecId s.world
    let s1 : Sys σ :=
      { s with log := s.log ++ [Event.avcodec_find_encoder_by_name in_strCodecId pCdc.isSome] }
    match pCdc with
    | none =>
      { ok := false, inout_apCdcCtx := none, inout_pStream := none, fmtCtx := some fmt,
        sys := s1 }
    | some cdc =>
      let ns := L.avformat_new_stream fmt s1.world
      let s2 : Sys σ :=
        { world := ns.2, log := s1.log ++ [Event.avformat_new_stream ns.1.isSome] }
      match ns.1 with
      | none =>
        { ok := false, inout_apCdcCtx := none, inout_pStream := none, fmtCtx := some fmt,
          sys := s2 }
      | some st0 =>
        -- pStream->id = in_pFmtCtx->nb_streams - 1;
        let pStream : AVStream := { st0 with id := (fmt.streams.length + 1 : Nat) - 1 }
        let fmt1 : AVFormatContext := { fmt with streams := fmt.streams ++ [pStream] }
        let al := L.avcodec_alloc_context3 cdc s2.world
        let s3 : Sys σ :=
          { world := al.2, log := s2.log ++ [Event.avcodec_alloc_context3 cdc al.1.isSome] }
        match al.1 with
        | none =>
          { ok := false, inout_apCdcCtx := none, inout_pStream := none, fmtCtx := some fmt1,
            sys := s3 }
        | some ctx0 =>
          let init : Bool × AVCodecContext :=
            match fnInitContext with
            | none => (true, ctx0)
            | some fn => fn pStream ctx0
          if !init.1 then
            { ok := false, inout_apCdcCtx := none, inout_pStream := none,
              fmtCtx := some fmt1, sys := s3 }
          else
            let ctx1 : AVCodecContext :=
              if Nat.land fmt.oformat_flags AVFMT_GLOBALHEADER != 0 then
                { init.2 with flags := Nat.lor init.2.flags AV_CODEC_FLAG_GLOBAL_HEADER }
              else init.2
            let op := L.avcodec_open2 ctx1 s3.world
            let s4 : Sys σ := { world := op.2, log := s3.log ++ [Event.avcodec_open2 op.1] }
            if op.1 < 0 then
              { ok := false, inout_apCdcCtx := none, inout_pStream := none,
                fmtCtx := some fmt1, sys := s4 }
            else
              let pf := L.avcodec_parameters_from_context ctx1 s4.world
              let s5 : Sys σ :=
                { world := pf.2,
                  log := s4.log ++ [Event.avcodec_parameters_from_context pf.1] }
              if pf.1 < 0 then
                { ok := false, inout_apCdcCtx := none, inout_pStream := none,
                  fmtCtx := some fmt1, sys := s5 }
              else
                { ok := true, inout_apCdcCtx := some ctx1, inout_pStream := some pStream,
                  fmtCtx := some fmt1, sys := s5 }

/-- The callback main passes to open_encoder_context (lines 478-513): the encoder
configuration, taking the picture size from the decoder context. -/
def encoder_init (pCdcCtxIn : AVCodecContext) (_stVideoOut : AVStream)
    (pCdcCtxOut : AVCodecContext) : Bool × AVCodecContext :=
  let bit_rate : Int := 6000000
  (true,
    { pCdcCtxOut with
      width := pCdcCtxIn.width
      height := pCdcCtxIn.height
      pix_fmt := 0
      gop_size := 25
      bit_rate := bit_rate
      rc_max_rate := bit_rate
      rc_buffer_size := bit_rate
      rc_initial_buffer_occupancy := Int.tdiv (bit_rate * 9) 10
      field_order := 2
      flags := Nat.lor (Nat.lor AV_CODEC_FLAG_INTERLACED_DCT AV_CODEC_FLAG_INTERLACED_ME)
                 AV_CODEC_FLAG_CLOSED_GOP
      time_base := { num := 1, den := 25 }
      framerate := { num := 25, den := 1 }
      sample_aspect_ratio := { num := 64, den := 45 } })

/-! ## The pipeline driver (main.cpp lines 421-641) -/

/-- The locals of main that live across iterations of the driver loop: dec carries the
world, the log, pktDec (as pPkt), bPendingPktDemux (as bPendingPkt) and the held
frame apAVFrame (as inout_apFrameOut). -/
structure DriverState (σ : Type) where
  dec : DecoderState σ
  nTimebase : Int

/-- How one iteration of the driver loop ends. -/
inductive LoopFlow
  /-- The end of the loop body is reached: go around again. -/
  | next
  /-- A `break` statement leaves the loop. -/
  | brk
  /-- The call of get_next_decoder_frame has not returned within its fuel. -/
  | stuck
deriving DecidableEq, Repr

/-- Lines 586-629: ask the encoder for one packet and hand it to the muxer. The release
of the local packet pktEnc is not logged. -/
def receive_packet {σ : Type} (L : Lib σ) (apCdcCtxOut : AVCodecContext)
    (st : DriverState σ) : LoopFlow × DriverState σ :=
  let rp := L.avcodec_receive_packet st.dec.world
  let ret := rp.1
  let d1 : DecoderState σ :=
    { st.dec with world := rp.2.2,
                  log := st.dec.log ++ [Event.avcodec_receive_packet ret rp.2.1] }
  if ret != 0 then
    if ret = AVERROR EAGAIN then (LoopFlow.next, { st with dec := d1 })
    else if ret = AVERROR_EOF then (LoopFlow.brk, { st with dec := d1 })
    else (LoopFlow.brk, { st with dec := d1 })
  else
    let pktEnc :=
      L.av_packet_rescale_ts rp.2.1 apCdcCtxOut.time_base (L.stream_time_base d1.world)
    let wr := L.av_interleaved_write_frame pktEnc d1.world
    let retInner := wr.1
    let d2 : DecoderState σ :=
      { d1 with world := wr.2,
                log := d1.log ++ [Event.av_interleaved_write_frame pktEnc retInner] }
    if retInner != 0 then (LoopFlow.brk, { st with dec := d2 })
    else (LoopFlow.next, { st with dec := d2 })

/-- Lines 543-545: the held frame if there is one, else the next frame of the decode
stage. The result pairs the value of getNextFrame (none when the call of
get_next_decoder_frame has not returned within its fuel) with the decode state. -/
def next_frame {σ : Type} (L : Lib σ) (nStreamIdxIn : Int) (dfuel : Nat)
    (st : DriverState σ) : Option Int × DecoderState σ :=
  -- const auto getNextFrame = apAVFrame ? 0 : get_next_decoder_frame(...);
  match st.dec.inout_apFrameOut with
  | some _ => (some 0, st.dec)
  | none => get_next_decoder_frame L nStreamIdxIn dfuel st.dec

/-- Lines 558-561: the fields main overwrites in a frame before submitting it. -/
def stamp_frame (frame : AVFrame) (nTimebase : Int) : AVFrame :=
  { frame with pts := nTimebase, key_frame := 0, pict_type := AV_PICTURE_TYPE_NONE }

/-- Lines 547-629: what the driver does with the value of getNextFrame, d being the
decode state after the fetch. -/
def encode_frame {σ : Type} (L : Lib σ) (apCdcCtxOut : AVCodecContext)
    (st : DriverState σ) (getNextFrame : Int) (d : DecoderState σ) :
    LoopFlow × DriverState σ :=
  if getNextFrame = AVERROR_EOF then
    -- avcodec_send_frame(apCdcCtxOut.get(), nullptr);
    let sf := L.avcodec_send_frame none d.world
    receive_packet L apCdcCtxOut
      { st with dec := { d with world := sf.2,
                                log := d.log ++ [Event.avcodec_send_frame none sf.1] } }
  else if getNextFrame < 0 then
    (LoopFlow.brk, { st with dec := d })
  else
    match d.inout_apFrameOut with
    | some frame =>
      let frame1 : AVFrame := stamp_frame frame st.nTimebase
      let sf := L.avcodec_send_frame (some frame1) d.world
      let ret := sf.1
      let d1 : DecoderState σ :=
        { d with world := sf.2,
                 log := d.log ++ [Event.avcodec_send_frame (some frame1) ret] }
      if ret < 0 then
        -- the error is only reported, and only when it is not EAGAIN; the frame stays held
        receive_packet L apCdcCtxOut
          { st with dec := { d1 with inout_apFrameOut := some frame1 } }
      else
        -- nTimebase += apCdcCtxOut->time_base.num; apAVFrame.reset();
        receive_packet L apCdcCtxOut
          { dec := { d1 with inout_apFrameOut := none },
            nTimebase := wrapInt64 (st.nTimebase + apCdcCtxOut.time_base.num) }
    | none => receive_packet L apCdcCtxOut { st with dec := d }

/-- One iteration of the driver loop (lines 543-629). -/
def driver_iteration {σ : Type} (L : Lib σ) (apCdcCtxOut : AVCodecContext)
    (nStreamIdxIn : Int) (dfuel : Nat) (st : DriverState σ) : LoopFlow × DriverState σ :=
  match next_frame L nStreamIdxIn dfuel st with
  | (none, d) => (LoopFlow.stuck, { st with dec := d })
  | (some getNextFrame, d) => encode_frame L apCdcCtxOut st getNextFrame d

/-- The driver loop (lines 541-630): iterate until an iteration breaks. The flow next
in the result means the loop is still running when the fuel is used up. -/
def driver_loop {σ : Type} (L : Lib σ) (apCdcCtxOut : AVCodecContext) (nStreamIdxIn : Int)
    (dfuel : Nat) : Nat → DriverState σ → LoopFlow × DriverState σ
  | 0, st => (LoopFlow.next, st)
  | fuel + 1, st =>
    match driver_iteration L apCdcCtxOut nStreamIdxIn dfuel st with
    | (LoopFlow.next, st1) => driver_loop L apCdcCtxOut nStreamIdxIn dfuel fuel st1
    | (flow, st1) => (flow, st1)

/-- How a run of main ends. -/
inductive Outcome
  /-- The function main returns this value. -/
  | exit (code : Int)
  /-- The program reads a null argv slot: undefined behaviour. -/
  | undefined
  /-- The program is still in one of its loops when the fuel is used up. -/
  | running
deriving DecidableEq, Repr

/-- The end of a run of main: how it ended, the world and everything it did. -/
structure MainResult (σ : Type) where
  outcome : Outcome
  world : σ
  log : List Event

/-- What main has in hand when it enters the driver loop. -/
structure Pipeline (σ : Type) where
  apFmtCtxOut : AVFormatContext
  nStreamIdxIn : Int
  apCdcCtxOut : AVCodecContext
  sys : Sys σ

/-- Lines 462-530 of main: open the decoder and the encoder, write the header. The left
result is a run that ends before the driver loop. -/
def open_codecs {σ : Type} (L : Lib σ) (apFmtCtxIn : Option AVFormatContext)
    (fmtOut : AVFormatContext) (s3 : Sys σ) : MainResult σ ⊕ Pipeline σ :=
  -- int nStreamIdxIn{}; open_decoder_context(..., AVMEDIA_TYPE_VIDEO, nStreamIdxIn, ..., {})
  match open_decoder_context L apFmtCtxIn AVMediaType.AVMEDIA_TYPE_VIDEO 0 none none s3 with
  | none => Sum.inl { outcome := Outcome.undefined, world := s3.world, log := s3.log }
  | some dcd =>
    match dcd.ok, dcd.inout_apCdcCtx with
    | true, some pCdcCtxIn =>
      let enc := open_encoder_context L (some fmtOut) "libx264"
        (some (encoder_init pCdcCtxIn)) dcd.sys
      match enc.ok, enc.inout_apCdcCtx, enc.fmtCtx with
      | true, some apCdcCtxOut, some fmtOut1 =>
        let wh := L.avformat_write_header enc.sys.world
        let s5 : Sys σ :=
          { world := wh.2, log := enc.sys.log ++ [Event.avformat_write_header wh.1] }
        if wh.1 < 0 then
          Sum.inl { outcome := Outcome.exit wh.1, world := s5.world, log := s5.log }
        else
          Sum.inr { apFmtCtxOut := fmtOut1, nStreamIdxIn := dcd.inout_nStreamidx,
                    apCdcCtxOut := apCdcCtxOut, sys := s5 }
      | _, _, _ =>
        Sum.inl { outcome := Outcome.exit 1, world := enc.sys.world, log := enc.sys.log }
    | _, _ =>
      Sum.inl { outcome := Outcome.exit 1, world := dcd.sys.world, log := dcd.sys.log }

/-- Lines 449-460 of main: open the output file unless the format needs none. The
first component is the value main returns when avio_open fails. -/
def open_output_file {σ : Type} (L : Lib σ) (fmtOut : AVFormatContext) (pathOut : String)
    (s2 : Sys σ) : Option Int × Sys σ :=
  -- if (!(apFmtCtxOut->oformat->flags & AVFMT_NOFILE))
  if Nat.land fmtOut.oformat_flags AVFMT_NOFILE == 0 then
    let ao := L.avio_open pathOut s2.world
    let s3 : Sys σ := { world := ao.2, log := s2.log ++ [Event.avio_open pathOut ao.1] }
    if ao.1 < 0 then (some ao.1, s3) else (none, s3)
  else (none, s2)

/-- Lines 423-530 of main: check the arguments, open both containers and both codecs,
write the header. The left result is a run that ends before the driver loop. -/
def setup {σ : Type} (L : Lib σ) (argv : List String) (w : σ) :
    MainResult σ ⊕ Pipeline σ :=
  let argc : Int := argv.length
  if argc < 1 then
    Sum.inl { outcome := Outcome.exit 1, world := w, log := [Event.usage_message] }
  else
    -- const std::string strSrcFilename = argv[1];
    match argv.get? 1 with
    | none => Sum.inl { outcome := Outcome.undefined, world := w, log := [Event.read_argv 1] }
    | some pathIn =>
      match open_input_format_context L pathIn { world := w, log := [Event.read_argv 1] } with
      | (false, _, s1) => Sum.inl { outcome := Outcome.exit 1, world := s1.world, log := s1.log }
      | (true, apFmtCtxIn, s1) =>
        match argv.get? 2 with
        | none =>
          Sum.inl { outcome := Outcome.undefined, world := s1.world,
                    log := s1.log ++ [Event.read_argv 2] }
        | some pathOut =>
          match open_output_format_context L pathOut
                  { s1 with log := s1.log ++ [Event.read_argv 2] } with
          | (false, _, s2) =>
            Sum.inl { outcome := Outcome.exit 1, world := s2.world, log := s2.log }
          | (true, none, s2) =>
            Sum.inl { outcome := Outcome.undefined, world := s2.world, log := s2.log }
          | (true, some fmtOut, s2) =>
            match open_output_file L fmtOut pathOut s2 with
            | (some ret, s3) =>
              Sum.inl { outcome := Outcome.exit ret, world := s3.world, log := s3.log }
            | (none, s3) => open_codecs L apFmtCtxIn fmtOut s3

/-- Lines 534-540: the locals of main as the driver loop finds them. -/
def driver_init {σ : Type} (s : Sys σ) : DriverState σ :=
  { dec := { world := s.world, log := s.log, pPkt := blankPacket, bPendingPkt := false,
             inout_apFrameOut := none },
    nTimebase := 0 }

/-- Lines 632-640: after the loop, write the trailer, close the output, return 0. -/
def finish {σ : Type} (L : Lib σ) (apFmtCtxOut : AVFormatContext)
    (r : LoopFlow × DriverState σ) : MainResult σ :=
  match r.1 with
  | LoopFlow.brk =>
    let w1 := L.av_write_trailer r.2.dec.world
    let log1 := r.2.dec.log ++ [Event.av_write_trailer]
    -- if (apFmtCtxOut && !(apFmtCtxOut->flags & AVFMT_NOFILE)) avio_closep(...)
    if Nat.land apFmtCtxOut.flags AVFMT_NOFILE == 0 then
      { outcome := Outcome.exit 0, world := L.avio_closep w1,
        log := log1 ++ [Event.avio_closep] }
    else
      { outcome := Outcome.exit 0, world := w1, log := log1 }
  | _ => { outcome := Outcome.running, world := r.2.dec.world, log := r.2.dec.log }

/-- The function main: fuel bounds the iterations of the driver loop and dfuel those
of each call of get_next_decoder_frame; argc is the length of argv. -/
def main {σ : Type} (L : Lib σ) (fuel dfuel : Nat) (argv : List String) (w : σ) :
    MainResult σ :=
  match setup L argv w with
  | Sum.inl r => r
  | Sum.inr p =>
    finish L p.apFmtCtxOut
      (driver_loop L p.apCdcCtxOut p.nStreamIdxIn dfuel fuel (driver_init p.sys))

/-! ## A scripted library, for running the program on concrete inputs -/

/-- The answers a scripted library gives, call by call, and the container it opens. -/
structure Script where
  input : AVFormatContext
  output : AVFormatContext
  reads : List (Int × AVPacket)
  sendPackets : List Int
  frames : List (Int × AVFrame)
  sendFrames : List Int
  packets : List (Int × AVPacket)
  writes : List Int
deriving DecidableEq, Repr

/-- A frame with the given buffer identity and source timing. -/
def mkFrame (data : Nat) (pts : Int) : AVFrame :=
  { data := data, pts := pts, pkt_dts := pts, pkt_pos := 188 * pts, pkt_size := 1000,
    pkt_duration := 1, key_frame := 1, pict_type := 1 }

/-- A packet with the given payload identity, stream and timing. -/
def mkPacket (data : Nat) (stream_index : Int) (ts : Int) : AVPacket :=
  { data := data, stream_index := stream_index, pts := ts, dts := ts }

/-- A codec context as avcodec_alloc_context3 hands it out. -/
def freshCodecContext (codec_id : Nat) : AVCodecContext :=
  { codec_id := codec_id, width := 0, height := 0, pix_fmt := -1, gop_size := 12,
    bit_rate := 0, rc_max_rate := 0, rc_buffer_size := 0, rc_initial_buffer_occupancy := 0,
    field_order := 0, flags := 0, time_base := { num := 0, den := 1 },
    framerate := { num := 0, den := 1 }, sample_aspect_ratio := { num := 0, den := 1 } }

/-- A stream finder for the scripted library: a wanted index that is not negative
restricts the search to that stream, a negative one takes the first stream of the kind;
the result is the libavutil code AVERROR_STREAM_NOT_FOUND when there is none. -/
def scripted_find_best_stream (fmt : AVFormatContext) (type : AVMediaType) (wanted : Int) :
    Int :=
  if 0 ≤ wanted then
    match fmt.streams.get? wanted.toNat with
    | some st => if st.codec_type = type then wanted else -1381258232
    | none => -1381258232
  else
    match fmt.streams.findIdx? (fun st => decide (st.codec_type = type)) with
    | some i => (i : Int)
    | none => -1381258232

/-- The scripted library: every set-up call succeeds, and each codec or container call
answers with the next entry of its list, or with its default once the list is used up
(end of file for the reads, frames and packets, success for the submissions). -/
def scriptedLib : Lib Script where
  avformat_open_input := fun _ w => (0, w.input, w)
  avformat_alloc_output_context2 := fun _ w => (0, w.output, w)
  avio_open := fun _ w => (0, w)
  av_find_best_stream := fun fmt type wanted _ => scripted_find_best_stream fmt type wanted
  avcodec_find_decoder := fun _ _ => true
  avcodec_find_encoder_by_name := fun _ _ => some 27
  avformat_new_stream := fun _ w =>
    (some { id := 0, codec_type := AVMediaType.AVMEDIA_TYPE_UNKNOWN, codec_id := 0 }, w)
  avcodec_alloc_context3 := fun codec_id w => (some (freshCodecContext codec_id), w)
  avcodec_parameters_to_context := fun ctx _ w => (0, { ctx with width := 720, height := 576 }, w)
  avcodec_parameters_from_context := fun _ w => (0, w)
  avcodec_open2 := fun _ w => (0, w)
  avformat_write_header := fun w => (0, w)
  stream_time_base := fun _ => { num := 1, den := 90000 }
  av_read_frame := fun w =>
    match w.reads with
    | [] => (AVERROR_EOF, blankPacket, w)
    | r :: rest => (r.1, r.2, { w with reads := rest })
  avcodec_send_packet := fun _ w =>
    match w.sendPackets with
    | [] => (0, w)
    | r :: rest => (r, { w with sendPackets := rest })
  avcodec_receive_frame := fun w =>
    match w.frames with
    | [] => (AVERROR_EOF, mkFrame 0 0, w)
    | r :: rest => (r.1, r.2, { w with frames := rest })
  avcodec_send_frame := fun _ w =>
    match w.sendFrames with
    | [] => (0, w)
    | r :: rest => (r, { w with sendFrames := rest })
  avcodec_receive_packet := fun w =>
    match w.packets with
    | [] => (AVERROR_EOF, blankPacket, w)
    | r :: rest => (r.1, r.2, { w with packets := rest })
  av_packet_rescale_ts := fun pkt src dst =>
    { pkt with pts := pkt.pts * (src.num * dst.den) / (src.den * dst.num),
               dts := pkt.dts * (src.num * dst.den) / (src.den * dst.num) }
  av_interleaved_write_frame := fun _ w =>
    match w.writes with
    | [] => (0, w)
    | r :: rest => (r, { w with writes := rest })
  av_write_trailer := fun w => w
  avio_closep := fun w => w

/-- An input container with one video stream. -/
def videoOnlyInput : AVFormatContext :=
  { streams := [{ id := 0, codec_type := AVMediaType.AVMEDIA_TYPE_VIDEO, codec_id := 2 }],
    oformat_flags := 0, flags := 0 }

/-- An output container of a format that writes to a file. -/
def tsOutput : AVFormatContext :=
  { streams := [], oformat_flags := 0, flags := 0 }

/-- A state of get_next_decoder_frame over a script, with nothing pending or held. -/
def decoderStart (w : Script) : DecoderState Script :=
  { world := w, log := [], pPkt := blankPacket, bPendingPkt := false,
    inout_apFrameOut := none }

/-! ## Projections of the log -/

/-- The frames submitted to the encoder, oldest first, each with the result of
avcodec_send_frame. The end-of-input signal (a null frame) is not a frame. -/
def frame_submissions (log : List Event) : List (AVFrame × Int) :=
  log.filterMap fun e =>
    match e with
    | Event.avcodec_send_frame (some f) ret => some (f, ret)
    | _ => none

/-- Of a list of submissions, the frames the encoder accepted (avcodec_send_frame
returned at least 0). -/
def accepted_of (subs : List (AVFrame × Int)) : List AVFrame :=
  (subs.filter fun p => decide (0 ≤ p.2)).map fun p => p.1

/-- The frames the encoder accepted, oldest first. -/
def accepted_frames (log : List Event) : List AVFrame :=
  accepted_of (frame_submissions log)

/-- The frames the decoder produced (avcodec_receive_frame returned 0), oldest first. -/
def decoded_frames (log : List Event) : List AVFrame :=
  log.filterMap fun e =>
    match e with
    | Event.avcodec_receive_frame ret f => if ret = 0 then some f else none
    | _ => none

/-- True for the calls of the decode stage: reading the container, releasing or
submitting a packet, receiving a frame. -/
def Event.isDecodeCall : Event → Bool
  | Event.av_read_frame _ _ => true
  | Event.av_packet_unref _ => true
  | Event.avcodec_send_packet _ _ => true
  | Event.avcodec_receive_frame _ _ => true
  | _ => false

/-- True for the calls that feed or drain the encoder or write a packet to the muxer. -/
def Event.isEncodeCall : Event → Bool
  | Event.avcodec_send_frame _ _ => true
  | Event.avcodec_receive_packet _ _ => true
  | Event.av_interleaved_write_frame _ _ => true
  | _ => false

/-- The calls that feed or drain the encoder or write to the muxer, oldest first. -/
def encode_calls (log : List Event) : List Event :=
  log.filter Event.isEncodeCall

/-- The calls of the decode stage, oldest first. -/
def decode_calls (log : List Event) : List Event :=
  log.filter Event.isDecodeCall

/-- After a rejected submission the next submission is of the same frame, unchanged. -/
def RetrySame (subs : List (AVFrame × Int)) : Prop :=
  ∀ pre a b post, subs = pre ++ a :: b :: post → a.2 < 0 → b.1 = a.1

/-- The invariant of the driver loop, over the submissions and the decoded frames of
the log, the held frame and the timestamp counter. -/
structure LoopInv (subs : List (AVFrame × Int)) (decs : List AVFrame)
    (held : Option AVFrame) (nTimebase : Int) : Prop where
  pts_accepted : (accepted_of subs).map (fun f => f.pts)
      = (List.range (accepted_of subs).length).map fun (k : Nat) => wrapInt64 (k : Int)
  counter : nTimebase = wrapInt64 ((accepted_of subs).length : Int)
  retry : RetrySame subs
  held_stamped : ∀ f, held = some f →
      f.pts = nTimebase ∧ f.key_frame = 0 ∧ f.pict_type = AV_PICTURE_TYPE_NONE
  rejected_held : ∀ a, subs.getLast? = some a → a.2 < 0 → held = some a.1
  decoded : decs.map (fun f => f.data)
      = (accepted_of subs).map (fun f => f.data) ++ held.toList.map fun f => f.data

/-- The invariant of the driver loop, on a state of the driver. -/
def DriverInv {σ : Type} (st : DriverState σ) : Prop :=
  LoopInv (frame_submissions st.dec.log) (decoded_frames st.dec.log)
    st.dec.inout_apFrameOut st.nTimebase

/-- A log without any call of the decode stage, the encoder or the muxer writer. -/
def Quiet (log : List Event) : Prop :=
  ∀ e ∈ log, e.isDecodeCall = false ∧ e.isEncodeCall = false

/-- What holds when main enters the driver loop or ends before it: the log has no
call of the codecs yet, and the encoder time base has numerator 1. -/
def SetupSpec {σ : Type} : MainResult σ ⊕ Pipeline σ → Prop
  | Sum.inl r => Quiet r.log
  | Sum.inr p => Quiet p.sys.log ∧ p.apCdcCtxOut.time_base.num = 1

/-! ## Concrete inputs -/

/-- A call of get_next_decoder_frame that starts with a packet pending: the decoder
takes the packet and hands out a frame. -/
def pendingCall : DecoderState Script :=
  { world := { input := videoOnlyInput, output := tsOutput, reads := [(0, mkPacket 8 0 4)],
               sendPackets := [0], frames := [(0, mkFrame 10 7)], sendFrames := [],
               packets := [], writes := [] },
    log := [], pPkt := mkPacket 7 0 3, bPendingPkt := true, inout_apFrameOut := none }

/-- Two packets of the elected stream are read with success; the decoder answers the
first submission with EAGAIN and has a frame ready each time it is asked. -/
def wouldBlockOnSubmit : Script :=
  { input := videoOnlyInput, output := tsOutput,
    reads := [(0, mkPacket 1 0 0), (0, mkPacket 2 0 1)],
    sendPackets := [AVERROR EAGAIN, 0],
    frames := [(0, mkFrame 10 7), (0, mkFrame 11 8)],
    sendFrames := [], packets := [], writes := [] }

/-- One packet of the elected stream is read with success; the decoder rejects its
submission with EINVAL and still has a frame ready. -/
def invalidOnSubmit : Script :=
  { input := videoOnlyInput, output := tsOutput,
    reads := [(0, mkPacket 1 0 0)],
    sendPackets := [AVERROR EINVAL],
    frames := [(0, mkFrame 10 7)],
    sendFrames := [], packets := [], writes := [] }

/-- The scripted library with av_read_frame held to its documented results: 0 on
success, a negative code otherwise. -/
def contractLib : Lib Script :=
  { scriptedLib with
    av_read_frame := fun w =>
      ((scriptedLib.av_read_frame w).1 ⊓ 0, (scriptedLib.av_read_frame w).2.1,
        (scriptedLib.av_read_frame w).2.2) }

/-- One packet of the elected stream is read and decoded to one frame. -/
def oneFrame : Script :=
  { input := videoOnlyInput, output := tsOutput,
    reads := [(0, mkPacket 1 0 0)],
    sendPackets := [0],
    frames := [(0, mkFrame 10 7)],
    sendFrames := [], packets := [], writes := [] }

/-- The command line of a well-formed call: program name, input path, output path. -/
def argvInOut : List String := ["x264_cbr", "in.ts", "out.ts"]

/-- Two packets decode to two frames; the encoder answers the first submission of the
first frame with EAGAIN and accepts every later one; it has no packet ready during the
first three iterations and is at its end after the end-of-input signal. -/
def retryRun : Script :=
  { input := videoOnlyInput, output := tsOutput,
    reads := [(0, mkPacket 1 0 0), (0, mkPacket 2 0 1)],
    sendPackets := [],
    frames := [(0, mkFrame 10 7), (0, mkFrame 11 8)],
    sendFrames := [AVERROR EAGAIN, 0, 0],
    packets := [(AVERROR EAGAIN, blankPacket), (AVERROR EAGAIN, blankPacket),
                (AVERROR EAGAIN, blankPacket)],
    writes := [] }

/-- One packet is read and submitted; the decoder then fails with EINVAL when asked for
a frame. -/
def fatalDecode : Script :=
  { input := videoOnlyInput, output := tsOutput,
    reads := [(0, mkPacket 1 0 0)],
    sendPackets := [],
    frames := [(AVERROR EINVAL, mkFrame 0 0)],
    sendFrames := [], packets := [], writes := [] }

/-- One frame is decoded; the encoder rejects it twice with EINVAL and has no packet
ready, then accepts it. -/
def fatalEncode : Script :=
  { input := videoOnlyInput, output := tsOutput,
    reads := [(0, mkPacket 1 0 0)],
    sendPackets := [],
    frames := [(0, mkFrame 10 7)],
    sendFrames := [AVERROR EINVAL, AVERROR EINVAL, 0],
    packets := [(AVERROR EAGAIN, blankPacket), (AVERROR EAGAIN, blankPacket),
                (AVERROR EAGAIN, blankPacket)],
    writes := [] }

/-- The encoder configuration main sets up over the scripted library. -/
def scriptedEncoder : AVCodecContext :=
  (encoder_init (freshCodecContext 2)
    { id := 0, codec_type := AVMediaType.AVMEDIA_TYPE_UNKNOWN, codec_id := 0 }
    (freshCodecContext 27)).2

/-- The state of the driver after one iteration over retryRun: the first frame has been
rejected with EAGAIN and is held. -/
def heldAfterRetry : DriverState Script :=
  (driver_iteration scriptedLib scriptedEncoder 0 2
    (driver_init { world := retryRun, log := [] })).2

/-- An input container whose first stream is audio and whose second is video. -/
def audioThenVideoInput : AVFormatContext :=
  { streams := [{ id := 0, codec_type := AVMediaType.AVMEDIA_TYPE_AUDIO, codec_id := 86018 },
                { id := 1, codec_type := AVMediaType.AVMEDIA_TYPE_VIDEO, codec_id := 2 }],
    oformat_flags := 0, flags := 0 }

/-- A script over the container audioThenVideoInput, with nothing to read. -/
def audioFirst : Script :=
  { input := audioThenVideoInput, output := tsOutput, reads := [], sendPackets := [],
    frames := [], sendFrames := [], packets := [], writes := [] }

/-- The world and an empty log, over the script audioFirst. -/
def audioFirstSys : Sys Script := { world := audioFirst, log := [] }

/-- The world and an empty log, over the script oneFrame, whose container has one
video stream. -/
def oneFrameSys : Sys Script := { world := oneFrame, log := [] }

/-- A codec context left over from an earlier call, to stand in the in/out handle. -/
def staleCodecContext : AVCodecContext := freshCodecContext 99

/-- The packets av_read_frame delivered (its result was not negative), oldest first. -/
def read_packets (log : List Event) : List AVPacket :=
  log.filterMap fun e =>
    match e with
    | Event.av_read_frame ret pkt => if 0 ≤ ret then some pkt else none
    | _ => none

/-- The packets submitted to the decoder, oldest first. The end-of-input signal (a null
packet) is not a packet. -/
def submitted_packets (log : List Event) : List AVPacket :=
  log.filterMap fun e =>
    match e with
    | Event.avcodec_send_packet (some pkt) _ => some pkt
    | _ => none

/-- The packets released with av_packet_unref, oldest first. -/
def released_packets (log : List Event) : List AVPacket :=
  log.filterMap fun e =>
    match e with
    | Event.av_packet_unref pkt => some pkt
    | _ => none

/-- Three packets are read, the second of another stream; the decoder needs the first
and the third to produce a frame. -/
def mixedStreams : Script :=
  { input := audioThenVideoInput, output := tsOutput,
    reads := [(0, mkPacket 1 1 0), (0, mkPacket 2 0 0), (0, mkPacket 3 1 1)],
    sendPackets := [],
    frames := [(AVERROR EAGAIN, mkFrame 0 0), (0, mkFrame 10 7)],
    sendFrames := [], packets := [], writes := [] }

/-! ## Theorems: the decode stage -/

theorem submit_packet_log {σ : Type} (L : Lib σ) (nStreamIdx : Int) (s : DecoderState σ) :
    ∃ evs, (submit_packet L nStreamIdx s).2.log = s.log ++ evs ∧
      (∀ e ∈ evs, e.isDecodeCall = true) ∧ decoded_frames evs = [] ∧
      (submit_packet L nStreamIdx s).2.inout_apFrameOut = s.inout_apFrameOut := by
  unfold submit_packet
  by_cases hp : s.bPendingPkt = true <;>
  · simp only [hp]
    split_ifs <;>
      first
      | exact ⟨_, rfl, by simp [Event.isDecodeCall], by simp [decoded_frames], rfl⟩
      | exact ⟨_, by simp only [List.append_assoc]; rfl, by simp [Event.isDecodeCall],
          by simp [decoded_frames], rfl⟩

theorem receive_frame_log {σ : Type} (L : Lib σ) (s : DecoderState σ) :
    ∃ evs, (receive_frame L s).2.log = s.log ++ evs ∧
      (∀ e ∈ evs, e.isDecodeCall = true) ∧
      (((receive_frame L s).2.inout_apFrameOut = s.inout_apFrameOut ∧
          decoded_frames evs = [] ∧ (receive_frame L s).1 ≠ some 0) ∨
       (∃ raw, (receive_frame L s).1 = some 0 ∧
          (receive_frame L s).2.inout_apFrameOut = some (clear_frame_timing raw) ∧
          decoded_frames evs = [raw])) := by
  unfold receive_frame
  refine ⟨[Event.avcodec_receive_frame (L.avcodec_receive_frame s.world).1
        (L.avcodec_receive_frame s.world).2.1], ?_, by simp [Event.isDecodeCall], ?_⟩
  · simp only
    split_ifs <;> rfl
  · by_cases h0 : (L.avcodec_receive_frame s.world).1 = 0
    · refine Or.inr ⟨(L.avcodec_receive_frame s.world).2.1, ?_, ?_, ?_⟩
      · simp [h0]
      · simp [h0]
      · simp [decoded_frames, h0]
    · refine Or.inl ⟨?_, ?_, ?_⟩
      · simp only [bne_iff_ne, ne_eq, h0, not_false_eq_true, if_true]
        split_ifs <;> rfl
      · simp [decoded_frames, h0]
      · simp only [bne_iff_ne, ne_eq, h0, not_false_eq_true, if_true]
        split_ifs <;> simp [h0, AVERROR, EFAULT]

theorem decoder_iteration_log {σ : Type} (L : Lib σ) (nStreamIdx : Int)
    (s : DecoderState σ) :
    ∃ evs, (decoder_iteration L nStreamIdx s).2.log = s.log ++ evs ∧
      (∀ e ∈ evs, e.isDecodeCall = true) ∧
      (((decoder_iteration L nStreamIdx s).2.inout_apFrameOut = s.inout_apFrameOut ∧
          decoded_frames evs = []) ∨
       (∃ raw, (decoder_iteration L nStreamIdx s).1 = some 0 ∧
          (decoder_iteration L nStreamIdx s).2.inout_apFrameOut
            = some (clear_frame_timing raw) ∧
          decoded_frames evs = [raw])) := by
  obtain ⟨evs1, hlog1, hdec1, hnone1, hout1⟩ := submit_packet_log L nStreamIdx s
  unfold decoder_iteration
  rcases hsp : submit_packet L nStreamIdx s with ⟨flow, s1⟩
  rw [hsp] at hlog1 hout1
  cases flow with
  | skip => exact ⟨evs1, hlog1, hdec1, Or.inl ⟨hout1, hnone1⟩⟩
  | ret code => exact ⟨evs1, hlog1, hdec1, Or.inl ⟨hout1, hnone1⟩⟩
  | receive =>
    obtain ⟨evs2, hlog2, hdec2, hres⟩ := receive_frame_log L s1
    simp only at hlog1 hout1 ⊢
    refine ⟨evs1 ++ evs2, by rw [hlog2, hlog1, List.append_assoc], ?_, ?_⟩
    · intro e he
      rcases List.mem_append.mp he with h | h
      · exact hdec1 e h
      · exact hdec2 e h
    · rcases hres with ⟨hsame, hnone2, _⟩ | ⟨raw, hret, hfr, hone⟩
      · exact Or.inl ⟨by rw [hsame, hout1], by
          simp only [decoded_frames, List.filterMap_append] at hnone1 hnone2 ⊢
          rw [hnone1, hnone2]; rfl⟩
      · exact Or.inr ⟨raw, hret, hfr, by
          simp only [decoded_frames, List.filterMap_append] at hnone1 hone ⊢
          rw [hnone1, hone]; rfl⟩

theorem get_next_decoder_frame_log {σ : Type} (L : Lib σ) (nStreamIdx : Int) (fuel : Nat) :
    ∀ s : DecoderState σ,
    ∃ evs, (get_next_decoder_frame L nStreamIdx fuel s).2.log = s.log ++ evs ∧
      (∀ e ∈ evs, e.isDecodeCall = true) ∧
      (((get_next_decoder_frame L nStreamIdx fuel s).2.inout_apFrameOut
            = s.inout_apFrameOut ∧ decoded_frames evs = []) ∨
       (∃ raw, (get_next_decoder_frame L nStreamIdx fuel s).1 = some 0 ∧
          (get_next_decoder_frame L nStreamIdx fuel s).2.inout_apFrameOut
            = some (clear_frame_timing raw) ∧
          decoded_frames evs = [raw])) := by
  induction fuel with
  | zero =>
    intro s
    exact ⟨[], by simp [get_next_decoder_frame], by simp, Or.inl ⟨rfl, rfl⟩⟩
  | succ n ih =>
    intro s
    obtain ⟨evs1, hlog1, hdec1, hres1⟩ := decoder_iteration_log L nStreamIdx s
    unfold get_next_decoder_frame
    rcases hit : decoder_iteration L nStreamIdx s with ⟨r, s1⟩
    rw [hit] at hlog1 hres1
    cases r with
    | some code => exact ⟨evs1, hlog1, hdec1, hres1⟩
    | none =>
      obtain ⟨evs2, hlog2, hdec2, hres2⟩ := ih s1
      simp only at hlog1 hres1 ⊢
      have hnone1 : s1.inout_apFrameOut = s.inout_apFrameOut ∧ decoded_frames evs1 = [] := by
        rcases hres1 with h | ⟨raw, hret, _⟩
        · exact h
        · exact absurd hret (by simp)
      refine ⟨evs1 ++ evs2, by rw [hlog2, hlog1, List.append_assoc], ?_, ?_⟩
      · intro e he
        rcases List.mem_append.mp he with h | h
        · exact hdec1 e h
        · exact hdec2 e h
      · rcases hres2 with ⟨hsame, hnone2⟩ | ⟨raw, hret, hfr, hone⟩
        · exact Or.inl ⟨by rw [hsame, hnone1.1], by
            have h1 := hnone1.2
            simp only [decoded_frames, List.filterMap_append] at h1 hnone2 ⊢
            rw [h1, hnone2]; rfl⟩
        · exact Or.inr ⟨raw, hret, hfr, by
            have h1 := hnone1.2
            simp only [decoded_frames, List.filterMap_append] at h1 hone ⊢
            rw [h1, hone]; rfl⟩

theorem submit_packet_pending {σ : Type} (L : Lib σ) (nStreamIdx : Int)
    (s : DecoderState σ) (h : s.bPendingPkt = true) :
    submit_packet L nStreamIdx s =
      (SubmitFlow.receive,
        { s with world := (L.avcodec_send_packet (some s.pPkt) s.world).2,
                 log := s.log ++ [Event.avcodec_send_packet (some s.pPkt)
                          (L.avcodec_send_packet (some s.pPkt) s.world).1],
                 bPendingPkt := false }) := by
  simp [submit_packet, h]

theorem submit_packet_no_return {σ : Type} (L : Lib σ)
    (hread : ∀ w, (L.av_read_frame w).1 ≤ 0) (nStreamIdx : Int) (s : DecoderState σ)
    (code : Int) : (submit_packet L nStreamIdx s).1 ≠ SubmitFlow.ret code := by
  have h0 := hread s.world
  unfold submit_packet
  by_cases hp : s.bPendingPkt = true
  · simp [hp]
  · have hp2 : s.bPendingPkt = false := by simpa using hp
    simp only [hp2, Bool.false_eq_true, if_false]
    split_ifs with h1 h2 h3 h4 <;> simp
    simp only [bne_iff_ne, ne_eq] at h3
    omega

theorem receive_frame_success {σ : Type} (L : Lib σ) (s : DecoderState σ)
    (h : (receive_frame L s).1 = some 0) :
    ∃ raw, (receive_frame L s).2.log.getLast? = some (Event.avcodec_receive_frame 0 raw) ∧
      (receive_frame L s).2.inout_apFrameOut = some (clear_frame_timing raw) := by
  unfold receive_frame at h ⊢
  by_cases h0 : (L.avcodec_receive_frame s.world).1 = 0
  · exact ⟨(L.avcodec_receive_frame s.world).2.1, by simp [h0], by simp [h0]⟩
  · exfalso
    simp only [bne_iff_ne, ne_eq, h0, not_false_eq_true, if_true] at h
    split_ifs at h with h1 h2 <;> simp [AVERROR, EFAULT] at h
    exact h0 h

theorem get_next_decoder_frame_success {σ : Type} (L : Lib σ)
    (hread : ∀ w, (L.av_read_frame w).1 ≤ 0) (nStreamIdx : Int) (fuel : Nat) :
    ∀ s : DecoderState σ, (get_next_decoder_frame L nStreamIdx fuel s).1 = some 0 →
    ∃ raw, (get_next_decoder_frame L nStreamIdx fuel s).2.log.getLast?
        = some (Event.avcodec_receive_frame 0 raw) ∧
      (get_next_decoder_frame L nStreamIdx fuel s).2.inout_apFrameOut
        = some (clear_frame_timing raw) := by
  induction fuel with
  | zero => intro s h; simp [get_next_decoder_frame] at h
  | succ n ih =>
    intro s h
    unfold get_next_decoder_frame at h ⊢
    have hit : decoder_iteration L nStreamIdx s =
        ((decoder_iteration L nStreamIdx s).1, (decoder_iteration L nStreamIdx s).2) := rfl
    rcases hr : (decoder_iteration L nStreamIdx s).1 with _ | code
    · rw [hit, hr] at h ⊢
      exact ih _ h
    · rw [hit, hr] at h ⊢
      simp only [Option.some.injEq] at h
      subst h
      simp only
      unfold decoder_iteration at hr ⊢
      have hnr := submit_packet_no_return L hread nStreamIdx s
      rcases hsp : submit_packet L nStreamIdx s with ⟨flow, s1⟩
      rw [hsp] at hr hnr
      cases flow with
      | skip => simp at hr
      | ret code => exact absurd rfl (hnr code)
      | receive => exact receive_frame_success L s1 hr

/-! ## Claims about get_next_decoder_frame -/

/-- C2, evaluated on the code: a packet of the elected stream is read with success and
avcodec_send_packet answers EAGAIN. Line 345 tests `ret`, the result of the read, not
`retInner`, so the flag bPendingPkt is false after the call, and the next call reads
packet 2 from the container: packet 1 is never submitted again. -/
theorem wouldblock_packet_not_marked_pending :
    (get_next_decoder_frame scriptedLib 0 1 (decoderStart wouldBlockOnSubmit)).1 = some 0 ∧
    (get_next_decoder_frame scriptedLib 0 1 (decoderStart wouldBlockOnSubmit)).2.bPendingPkt
      = false ∧
    (get_next_decoder_frame scriptedLib 0 1
        (get_next_decoder_frame scriptedLib 0 1 (decoderStart wouldBlockOnSubmit)).2).2.log
      = [Event.av_read_frame 0 (mkPacket 1 0 0),
         Event.avcodec_send_packet (some (mkPacket 1 0 0)) (AVERROR EAGAIN),
         Event.avcodec_receive_frame 0 (mkFrame 10 7),
         Event.av_read_frame 0 (mkPacket 2 0 1),
         Event.avcodec_send_packet (some (mkPacket 2 0 1)) 0,
         Event.avcodec_receive_frame 0 (mkFrame 11 8)] := by
  refine ⟨?_, ?_, ?_⟩ <;> decide

/-- C3: a call of get_next_decoder_frame that starts with the pending flag set first
submits the held packet to the decoder, in the world as the call found it: the first
event the call adds to the log is that submission, so no packet is read, filtered or
released before it. -/
theorem pending_packet_resubmitted_first {σ : Type} (L : Lib σ) (nStreamIdx : Int)
    (fuel : Nat) (s : DecoderState σ) (h : s.bPendingPkt = true) :
    ∃ rest, (get_next_decoder_frame L nStreamIdx (fuel + 1) s).2.log =
      s.log ++ Event.avcodec_send_packet (some s.pPkt)
                  (L.avcodec_send_packet (some s.pPkt) s.world).1 :: rest := by
  have hsp := submit_packet_pending L nStreamIdx s h
  obtain ⟨evs2, hlog2, -, -⟩ := receive_frame_log L (submit_packet L nStreamIdx s).2
  have hit : decoder_iteration L nStreamIdx s
      = receive_frame L (submit_packet L nStreamIdx s).2 := by
    unfold decoder_iteration
    rw [hsp]
  have hlog : (decoder_iteration L nStreamIdx s).2.log =
      s.log ++ Event.avcodec_send_packet (some s.pPkt)
                  (L.avcodec_send_packet (some s.pPkt) s.world).1 :: evs2 := by
    rw [hit, hlog2, hsp]
    simp
  unfold get_next_decoder_frame
  rcases hr : decoder_iteration L nStreamIdx s with ⟨r, s1⟩
  rw [hr] at hlog
  cases r with
  | some code => exact ⟨evs2, hlog⟩
  | none =>
    obtain ⟨evs3, hlog3, -, -⟩ := get_next_decoder_frame_log L nStreamIdx fuel s1
    exact ⟨evs2 ++ evs3, by simp only at hlog ⊢; rw [hlog3, hlog]; simp⟩

/-- C3 at a concrete call: a packet is pending and the container has another packet
ready; the call submits the pending one first. -/
theorem pending_packet_resubmitted_first_witness :
    pendingCall.bPendingPkt = true ∧
    ∃ rest, (get_next_decoder_frame scriptedLib 0 1 pendingCall).2.log =
      pendingCall.log ++ Event.avcodec_send_packet (some pendingCall.pPkt)
        (scriptedLib.avcodec_send_packet (some pendingCall.pPkt) pendingCall.world).1 :: rest :=
  ⟨rfl, pending_packet_resubmitted_first scriptedLib 0 0 pendingCall rfl⟩

/-- C7, evaluated on the code: a packet of the elected stream is read with success and
avcodec_send_packet fails with EINVAL. Line 345 tests `ret`, which is 0, so the error
branch is not taken: the call goes on to avcodec_receive_frame and returns 0 with the
frame it got, instead of returning the error. -/
theorem failed_submission_still_receives :
    (get_next_decoder_frame scriptedLib 0 1 (decoderStart invalidOnSubmit)).1 = some 0 ∧
    (get_next_decoder_frame scriptedLib 0 1 (decoderStart invalidOnSubmit)).2.log
      = [Event.av_read_frame 0 (mkPacket 1 0 0),
         Event.avcodec_send_packet (some (mkPacket 1 0 0)) (AVERROR EINVAL),
         Event.avcodec_receive_frame 0 (mkFrame 10 7)] := by
  refine ⟨?_, ?_⟩ <;> decide

/-- C9: when av_read_frame keeps to its documented results (0 or a negative code),
every call of get_next_decoder_frame that returns 0 hands back the frame the decoder
produced last, with pts and pkt_dts set to AV_NOPTS_VALUE, pkt_pos to -1 and
pkt_duration to 0, whatever the decoder had put there. -/
theorem returned_frame_has_timing_cleared {σ : Type} (L : Lib σ)
    (hread : ∀ w, (L.av_read_frame w).1 ≤ 0) (nStreamIdx : Int) (fuel : Nat)
    (s : DecoderState σ)
    (h : (get_next_decoder_frame L nStreamIdx fuel s).1 = some 0) :
    ∃ raw f,
      (get_next_decoder_frame L nStreamIdx fuel s).2.log.getLast?
        = some (Event.avcodec_receive_frame 0 raw) ∧
      (get_next_decoder_frame L nStreamIdx fuel s).2.inout_apFrameOut = some f ∧
      f.data = raw.data ∧
      f.pts = AV_NOPTS_VALUE ∧ f.pkt_dts = AV_NOPTS_VALUE ∧
      f.pkt_pos = -1 ∧ f.pkt_duration = 0 := by
  obtain ⟨raw, hlast, hout⟩ := get_next_decoder_frame_success L hread nStreamIdx fuel s h
  exact ⟨raw, clear_frame_timing raw, hlast, hout, rfl, rfl, rfl, rfl, rfl⟩

/-- C9 at a concrete call: one packet is read and decoded to a frame that carries
source timing; the frame handed back has it cleared. -/
theorem returned_frame_has_timing_cleared_witness :
    (∀ w, (contractLib.av_read_frame w).1 ≤ 0) ∧
    (get_next_decoder_frame contractLib 0 2 (decoderStart oneFrame)).1 = some 0 ∧
    ∃ raw f,
      (get_next_decoder_frame contractLib 0 2 (decoderStart oneFrame)).2.log.getLast?
        = some (Event.avcodec_receive_frame 0 raw) ∧
      (get_next_decoder_frame contractLib 0 2 (decoderStart oneFrame)).2.inout_apFrameOut
        = some f ∧
      f.data = raw.data ∧
      f.pts = AV_NOPTS_VALUE ∧ f.pkt_dts = AV_NOPTS_VALUE ∧
      f.pkt_pos = -1 ∧ f.pkt_duration = 0 :=
  ⟨fun _ => inf_le_right, by decide,
    returned_frame_has_timing_cleared contractLib (fun _ => inf_le_right) 0 2
      (decoderStart oneFrame) (by decide)⟩

/-! ## Theorems: the driver loop -/

theorem wrapInt64_succ (n : Nat) :
    wrapInt64 (wrapInt64 (n : Int) + 1) = wrapInt64 ((n + 1 : Nat) : Int) := by
  unfold wrapInt64
  push_cast
  omega

theorem wrapInt64_of_lt (k : Nat) (h : k < 2 ^ 63) : wrapInt64 (k : Int) = k := by
  unfold wrapInt64
  have h2 : (k : Int) < 2 ^ 63 := by exact_mod_cast h
  omega

theorem accepted_of_append_accepted (subs : List (AVFrame × Int)) (f : AVFrame) (ret : Int)
    (h : 0 ≤ ret) : accepted_of (subs ++ [(f, ret)]) = accepted_of subs ++ [f] := by
  simp [accepted_of, List.filter_append, h]

theorem accepted_of_append_rejected (subs : List (AVFrame × Int)) (f : AVFrame) (ret : Int)
    (h : ret < 0) : accepted_of (subs ++ [(f, ret)]) = accepted_of subs := by
  have h2 : ¬ 0 ≤ ret := by omega
  simp [accepted_of, List.filter_append, h2]

theorem RetrySame_append (subs : List (AVFrame × Int)) (x : AVFrame × Int)
    (h : RetrySame subs)
    (hx : ∀ a, subs.getLast? = some a → a.2 < 0 → x.1 = a.1) :
    RetrySame (subs ++ [x]) := by
  intro pre a b post heq ha
  rcases List.eq_nil_or_concat post with rfl | ⟨post2, y, rfl⟩
  · have h1 : subs ++ [x] = (pre ++ [a]) ++ [b] := by rw [heq]; simp
    obtain ⟨hs, hb⟩ := List.append_inj' h1 rfl
    have hb2 : x = b := by simpa using hb
    subst hb2
    exact hx a (by rw [hs]; simp) ha
  · have h1 : subs ++ [x] = (pre ++ a :: b :: post2) ++ [y] := by rw [heq]; simp
    obtain ⟨hs, -⟩ := List.append_inj' h1 rfl
    exact h pre a b post2 hs ha

theorem LoopInv_idle {subs : List (AVFrame × Int)} {decs0 decs : List AVFrame}
    {held0 : Option AVFrame} {tb : Int} (inv : LoopInv subs decs0 held0 tb)
    (hlast : ∀ a, subs.getLast? = some a → a.2 < 0 → False)
    (hdec : decs.map (fun f => f.data) = (accepted_of subs).map fun f => f.data) :
    LoopInv subs decs none tb where
  pts_accepted := inv.pts_accepted
  counter := inv.counter
  retry := inv.retry
  held_stamped := by intro f hf; simp at hf
  rejected_held := by intro a ha hr; exact absurd (hlast a ha hr) id
  decoded := by simp [hdec]

theorem LoopInv_reject {subs : List (AVFrame × Int)} {decs0 decs : List AVFrame}
    {held0 : Option AVFrame} {tb : Int} (inv : LoopInv subs decs0 held0 tb)
    (frame1 : AVFrame) (ret : Int) (hret : ret < 0)
    (hlast : ∀ a, subs.getLast? = some a → a.2 < 0 → frame1 = a.1)
    (hstamp : frame1.pts = tb ∧ frame1.key_frame = 0 ∧
       frame1.pict_type = AV_PICTURE_TYPE_NONE)
    (hdec : decs.map (fun f => f.data)
       = (accepted_of subs).map (fun f => f.data) ++ [frame1.data]) :
    LoopInv (subs ++ [(frame1, ret)]) decs (some frame1) tb where
  pts_accepted := by rw [accepted_of_append_rejected subs frame1 ret hret]; exact inv.pts_accepted
  counter := by rw [accepted_of_append_rejected subs frame1 ret hret]; exact inv.counter
  retry := RetrySame_append subs (frame1, ret) inv.retry hlast
  held_stamped := by
    intro f hf
    simp only [Option.some.injEq] at hf
    subst hf
    exact hstamp
  rejected_held := by
    intro a ha _
    simp at ha
    subst ha
    rfl
  decoded := by rw [accepted_of_append_rejected subs frame1 ret hret]; simpa using hdec

theorem LoopInv_accept {subs : List (AVFrame × Int)} {decs0 decs : List AVFrame}
    {held0 : Option AVFrame} {tb : Int} (inv : LoopInv subs decs0 held0 tb)
    (frame1 : AVFrame) (ret : Int) (hret : 0 ≤ ret)
    (hlast : ∀ a, subs.getLast? = some a → a.2 < 0 → frame1 = a.1)
    (hstamp : frame1.pts = tb)
    (hdec : decs.map (fun f => f.data)
       = (accepted_of subs).map (fun f => f.data) ++ [frame1.data]) :
    LoopInv (subs ++ [(frame1, ret)]) decs none (wrapInt64 (tb + 1)) where
  pts_accepted := by
    rw [accepted_of_append_accepted subs frame1 ret hret]
    simp only [List.map_append, List.length_append, List.length_singleton, List.map_cons,
      List.map_nil, List.range_succ]
    rw [inv.pts_accepted, hstamp, inv.counter]
  counter := by
    rw [accepted_of_append_accepted subs frame1 ret hret, inv.counter]
    simp only [List.length_append, List.length_singleton]
    exact wrapInt64_succ _
  retry := RetrySame_append subs (frame1, ret) inv.retry hlast
  held_stamped := by intro f hf; simp at hf
  rejected_held := by
    intro a ha hr
    simp at ha
    subst ha
    simp only at hr
    omega
  decoded := by
    rw [accepted_of_append_accepted subs frame1 ret hret]
    simpa using hdec

theorem frame_submissions_of_decode_calls (evs : List Event)
    (h : ∀ e ∈ evs, e.isDecodeCall = true) : frame_submissions evs = [] := by
  unfold frame_submissions
  rw [List.filterMap_eq_nil_iff]
  intro e he
  have h1 := h e he
  cases e <;> simp [Event.isDecodeCall] at h1 ⊢

theorem encode_calls_of_decode_calls (evs : List Event)
    (h : ∀ e ∈ evs, e.isDecodeCall = true) : encode_calls evs = [] := by
  unfold encode_calls
  rw [List.filter_eq_nil_iff]
  intro e he
  have h1 := h e he
  cases e <;> simp [Event.isDecodeCall, Event.isEncodeCall] at h1 ⊢

theorem receive_packet_keeps {σ : Type} (L : Lib σ) (apCdcCtxOut : AVCodecContext)
    (st : DriverState σ) :
    frame_submissions (receive_packet L apCdcCtxOut st).2.dec.log
        = frame_submissions st.dec.log ∧
    decoded_frames (receive_packet L apCdcCtxOut st).2.dec.log = decoded_frames st.dec.log ∧
    decode_calls (receive_packet L apCdcCtxOut st).2.dec.log = decode_calls st.dec.log ∧
    (receive_packet L apCdcCtxOut st).2.dec.inout_apFrameOut = st.dec.inout_apFrameOut ∧
    (receive_packet L apCdcCtxOut st).2.nTimebase = st.nTimebase := by
  unfold receive_packet
  simp only
  split_ifs <;>
    simp [frame_submissions, decoded_frames, decode_calls, Event.isDecodeCall,
      List.filter_append]

theorem receive_packet_inv {σ : Type} (L : Lib σ) (apCdcCtxOut : AVCodecContext)
    (st : DriverState σ) (inv : DriverInv st) :
    DriverInv (receive_packet L apCdcCtxOut st).2 := by
  obtain ⟨h1, h2, -, h3, h4⟩ := receive_packet_keeps L apCdcCtxOut st
  unfold DriverInv
  rw [h1, h2, h3, h4]
  exact inv

/-- What the driver knows about the decode state after the fetch of lines 543-545. -/
theorem next_frame_facts {σ : Type} (L : Lib σ) (nStreamIdxIn : Int) (dfuel : Nat)
    (st : DriverState σ) (inv : DriverInv st) :
    frame_submissions (next_frame L nStreamIdxIn dfuel st).2.log
        = frame_submissions st.dec.log ∧
    (decoded_frames (next_frame L nStreamIdxIn dfuel st).2.log).map (fun f => f.data)
        = (accepted_of (frame_submissions st.dec.log)).map (fun f => f.data)
          ++ (next_frame L nStreamIdxIn dfuel st).2.inout_apFrameOut.toList.map
              (fun f => f.data) ∧
    (∀ a, (frame_submissions st.dec.log).getLast? = some a → a.2 < 0 →
        (next_frame L nStreamIdxIn dfuel st).2.inout_apFrameOut = some a.1 ∧
        a.1.pts = st.nTimebase ∧ a.1.key_frame = 0 ∧
        a.1.pict_type = AV_PICTURE_TYPE_NONE) ∧
    ((next_frame L nStreamIdxIn dfuel st).1 ≠ some 0 →
        (next_frame L nStreamIdxIn dfuel st).2.inout_apFrameOut = none) := by
  unfold DriverInv at inv
  unfold next_frame
  cases hheld : st.dec.inout_apFrameOut with
  | some f =>
    simp only
    rw [hheld] at inv
    refine ⟨trivial, ?_, ?_, ?_⟩
    · rw [hheld]; exact inv.decoded
    · intro a ha hr
      have h1 := inv.rejected_held a ha hr
      rw [hheld]
      exact ⟨h1, by
        have h2 := inv.held_stamped f rfl
        simp only [Option.some.injEq] at h1
        rw [← h1]; exact h2⟩
    · intro h; exact absurd rfl h
  | none =>
    simp only
    rw [hheld] at inv
    obtain ⟨evs, hlog, hdc, hres⟩ := get_next_decoder_frame_log L nStreamIdxIn dfuel st.dec
    have hdec0 := inv.decoded
    simp only [Option.toList, List.map_nil, List.append_nil] at hdec0
    refine ⟨?_, ?_, ?_, ?_⟩
    · rw [hlog]
      have h0 := frame_submissions_of_decode_calls evs hdc
      simp only [frame_submissions, List.filterMap_append] at h0 ⊢
      rw [h0, List.append_nil]
    · rw [hlog]
      rcases hres with ⟨hsame, hnone⟩ | ⟨raw, -, hfr, hone⟩
      · rw [hsame, hheld]
        simp only [decoded_frames, List.filterMap_append] at hnone hdec0 ⊢
        simp [hnone, hdec0]
      · rw [hfr]
        simp only [decoded_frames, List.filterMap_append] at hone hdec0 ⊢
        simp [hone, hdec0, clear_frame_timing]
    · intro a ha hr
      have h1 := inv.rejected_held a ha hr
      simp at h1
    · intro hne
      rcases hres with ⟨hsame, -⟩ | ⟨raw, hret, -, -⟩
      · rw [hsame, hheld]
      · exact absurd hret hne

theorem frame_submissions_append_frame (log : List Event) (f : AVFrame) (ret : Int) :
    frame_submissions (log ++ [Event.avcodec_send_frame (some f) ret])
      = frame_submissions log ++ [(f, ret)] := by
  simp [frame_submissions, List.filterMap_append]

theorem frame_submissions_append_eof (log : List Event) (ret : Int) :
    frame_submissions (log ++ [Event.avcodec_send_frame none ret]) = frame_submissions log := by
  simp [frame_submissions, List.filterMap_append]

theorem decoded_frames_append_send_frame (log : List Event) (f : Option AVFrame) (ret : Int) :
    decoded_frames (log ++ [Event.avcodec_send_frame f ret]) = decoded_frames log := by
  simp [decoded_frames, List.filterMap_append]

theorem restamp_eq (f : AVFrame) (tb : Int)
    (h : f.pts = tb ∧ f.key_frame = 0 ∧ f.pict_type = AV_PICTURE_TYPE_NONE) :
    stamp_frame f tb = f := by
  unfold stamp_frame
  cases f
  simp only at h
  obtain ⟨h1, h2, h3⟩ := h
  subst h1 h2 h3
  rfl

theorem encode_frame_inv {σ : Type} (L : Lib σ) (apCdcCtxOut : AVCodecContext)
    (st : DriverState σ) (getNextFrame : Int) (d : DecoderState σ) (inv : DriverInv st)
    (hnum : apCdcCtxOut.time_base.num = 1)
    (h1 : frame_submissions d.log = frame_submissions st.dec.log)
    (h2 : (decoded_frames d.log).map (fun f => f.data)
        = (accepted_of (frame_submissions st.dec.log)).map (fun f => f.data)
          ++ d.inout_apFrameOut.toList.map (fun f => f.data))
    (h3 : ∀ a, (frame_submissions st.dec.log).getLast? = some a → a.2 < 0 →
        d.inout_apFrameOut = some a.1 ∧ a.1.pts = st.nTimebase ∧ a.1.key_frame = 0 ∧
        a.1.pict_type = AV_PICTURE_TYPE_NONE)
    (h4 : getNextFrame ≠ 0 → d.inout_apFrameOut = none) :
    DriverInv (encode_frame L apCdcCtxOut st getNextFrame d).2 := by
  unfold DriverInv at inv
  have idle : d.inout_apFrameOut = none →
      LoopInv (frame_submissions st.dec.log) (decoded_frames d.log) none st.nTimebase := by
    intro hnone
    refine LoopInv_idle inv ?_ ?_
    · intro a ha hr
      have h5 := (h3 a ha hr).1
      rw [hnone] at h5
      simp at h5
    · rw [h2, hnone]; simp
  unfold encode_frame
  by_cases hEOF : getNextFrame = AVERROR_EOF
  · rw [if_pos hEOF]
    apply receive_packet_inv
    have hnone := h4 (by rw [hEOF]; decide)
    show LoopInv (frame_submissions (d.log ++ [_])) (decoded_frames (d.log ++ [_]))
      d.inout_apFrameOut st.nTimebase
    rw [frame_submissions_append_eof, decoded_frames_append_send_frame, h1, hnone]
    exact idle hnone
  · rw [if_neg hEOF]
    by_cases hneg : getNextFrame < 0
    · rw [if_pos hneg]
      have hnone := h4 (by omega)
      show LoopInv (frame_submissions d.log) (decoded_frames d.log) d.inout_apFrameOut
        st.nTimebase
      rw [h1, hnone]
      exact idle hnone
    · rw [if_neg hneg]
      cases hh : d.inout_apFrameOut with
      | none =>
        simp only
        apply receive_packet_inv
        show LoopInv (frame_submissions d.log) (decoded_frames d.log) d.inout_apFrameOut
          st.nTimebase
        rw [h1, hh]
        exact idle hh
      | some frame =>
        simp only
        rw [hh] at h2 h3
        have hlast : ∀ a, (frame_submissions st.dec.log).getLast? = some a → a.2 < 0 →
            stamp_frame frame st.nTimebase = a.1 := by
          intro a ha hr
          obtain ⟨h5, h6⟩ := h3 a ha hr
          simp only [Option.some.injEq] at h5
          rw [h5]
          exact restamp_eq a.1 st.nTimebase h6
        have hdec : (decoded_frames d.log).map (fun f => f.data)
            = (accepted_of (frame_submissions st.dec.log)).map (fun f => f.data)
              ++ [(stamp_frame frame st.nTimebase).data] := by
          simpa [stamp_frame] using h2
        split_ifs with hret
        · apply receive_packet_inv
          show LoopInv (frame_submissions (d.log ++ [_])) (decoded_frames (d.log ++ [_]))
            (some _) st.nTimebase
          rw [frame_submissions_append_frame, decoded_frames_append_send_frame, h1]
          exact LoopInv_reject inv _ _ hret hlast ⟨rfl, rfl, rfl⟩ hdec
        · apply receive_packet_inv
          show LoopInv (frame_submissions (d.log ++ [_])) (decoded_frames (d.log ++ [_]))
            none (wrapInt64 (st.nTimebase + apCdcCtxOut.time_base.num))
          rw [frame_submissions_append_frame, decoded_frames_append_send_frame, h1, hnum]
          exact LoopInv_accept inv _ _ (by omega) hlast rfl hdec

theorem driver_iteration_inv {σ : Type} (L : Lib σ) (apCdcCtxOut : AVCodecContext)
    (nStreamIdxIn : Int) (dfuel : Nat) (st : DriverState σ) (inv : DriverInv st)
    (hnum : apCdcCtxOut.time_base.num = 1) :
    DriverInv (driver_iteration L apCdcCtxOut nStreamIdxIn dfuel st).2 := by
  obtain ⟨h1, h2, h3, h4⟩ := next_frame_facts L nStreamIdxIn dfuel st inv
  unfold driver_iteration
  rcases hg : next_frame L nStreamIdxIn dfuel st with ⟨r, d⟩
  rw [hg] at h1 h2 h3 h4
  simp only at h1 h2 h3 h4
  cases r with
  | none =>
    have hnone := h4 (by simp)
    simp only
    show LoopInv (frame_submissions d.log) (decoded_frames d.log) d.inout_apFrameOut
      st.nTimebase
    rw [h1, hnone]
    refine LoopInv_idle inv ?_ ?_
    · intro a ha hr
      have h5 := (h3 a ha hr).1
      rw [hnone] at h5
      simp at h5
    · rw [h2, hnone]; simp
  | some code =>
    simp only
    exact encode_frame_inv L apCdcCtxOut st code d inv hnum h1 h2 h3
      (fun hne => h4 (by simpa using hne))

theorem driver_loop_inv {σ : Type} (L : Lib σ) (apCdcCtxOut : AVCodecContext)
    (nStreamIdxIn : Int) (dfuel : Nat) (hnum : apCdcCtxOut.time_base.num = 1) (fuel : Nat) :
    ∀ st : DriverState σ, DriverInv st →
      DriverInv (driver_loop L apCdcCtxOut nStreamIdxIn dfuel fuel st).2 := by
  induction fuel with
  | zero => intro st inv; exact inv
  | succ n ih =>
    intro st inv
    have h1 := driver_iteration_inv L apCdcCtxOut nStreamIdxIn dfuel st inv hnum
    unfold driver_loop
    rcases hit : driver_iteration L apCdcCtxOut nStreamIdxIn dfuel st with ⟨flow, st1⟩
    rw [hit] at h1
    cases flow with
    | next => exact ih st1 h1
    | brk => exact h1
    | stuck => exact h1

/-! ## Theorems: set-up and the whole run -/

theorem Quiet_append_iff (l1 l2 : List Event) : Quiet (l1 ++ l2) ↔ Quiet l1 ∧ Quiet l2 := by
  unfold Quiet
  simp only [List.mem_append]
  constructor
  · intro h
    exact ⟨fun e he => h e (Or.inl he), fun e he => h e (Or.inr he)⟩
  · rintro ⟨h1, h2⟩ e (he | he)
    · exact h1 e he
    · exact h2 e he

theorem Quiet_cons_iff (e : Event) (l : List Event) :
    Quiet (e :: l) ↔ (e.isDecodeCall = false ∧ e.isEncodeCall = false) ∧ Quiet l := by
  unfold Quiet
  simp

theorem Quiet_nil : Quiet [] := by
  intro e he
  simp at he

theorem open_decoder_context_quiet {σ : Type} (L : Lib σ)
    (in_pFmtCtx : Option AVFormatContext) (in_eMediaType : AVMediaType)
    (inout_nStreamidx : Int) (inout_apCdcCtx : Option AVCodecContext)
    (fnInitContext : Option (AVCodecContext → Bool × AVCodecContext)) (s : Sys σ)
    (hq : Quiet s.log) :
    ∀ r ∈ open_decoder_context L in_pFmtCtx in_eMediaType inout_nStreamidx inout_apCdcCtx
          fnInitContext s, Quiet r.sys.log := by
  unfold open_decoder_context
  simp only
  repeat' split
  all_goals
    intro r hr
    first
      | (simp only [Option.mem_def, Option.some.injEq] at hr
         subst hr
         simp [Quiet_append_iff, Quiet_cons_iff, Quiet_nil, hq, Event.isDecodeCall,
           Event.isEncodeCall])
      | simp at hr

theorem open_encoder_context_quiet {σ : Type} (L : Lib σ)
    (in_pFmtCtx : Option AVFormatContext) (in_strCodecId : String)
    (fnInitContext : Option (AVStream → AVCodecContext → Bool × AVCodecContext))
    (s : Sys σ) (hq : Quiet s.log) :
    Quiet (open_encoder_context L in_pFmtCtx in_strCodecId fnInitContext s).sys.log := by
  unfold open_encoder_context
  simp only
  repeat' split
  all_goals
    simp [Quiet_append_iff, Quiet_cons_iff, Quiet_nil, hq, Event.isDecodeCall, Event.isEncodeCall]

theorem open_encoder_context_time_base {σ : Type} (L : Lib σ)
    (in_pFmtCtx : Option AVFormatContext) (in_strCodecId : String)
    (pCdcCtxIn : AVCodecContext) (s : Sys σ) (ctx : AVCodecContext)
    (h : (open_encoder_context L in_pFmtCtx in_strCodecId
            (some (encoder_init pCdcCtxIn)) s).inout_apCdcCtx = some ctx) :
    ctx.time_base.num = 1 := by
  revert h
  unfold open_encoder_context
  simp only
  repeat' split
  all_goals
    intro h
    first
      | (simp only [Option.some.injEq] at h; subst h; rfl)
      | simp at h

theorem open_input_format_context_quiet {σ : Type} (L : Lib σ) (strPath : String)
    (s : Sys σ) (hq : Quiet s.log) :
    Quiet (open_input_format_context L strPath s).2.2.log := by
  unfold open_input_format_context
  simp only
  split <;>
    simp [Quiet_append_iff, Quiet_cons_iff, Quiet_nil, hq, Event.isDecodeCall,
      Event.isEncodeCall]

theorem open_output_format_context_quiet {σ : Type} (L : Lib σ) (strMediaPath : String)
    (s : Sys σ) (hq : Quiet s.log) :
    Quiet (open_output_format_context L strMediaPath s).2.2.log := by
  unfold open_output_format_context
  simp only
  split <;>
    simp [Quiet_append_iff, Quiet_cons_iff, Quiet_nil, hq, Event.isDecodeCall,
      Event.isEncodeCall]

theorem open_codecs_spec {σ : Type} (L : Lib σ) (apFmtCtxIn : Option AVFormatContext)
    (fmtOut : AVFormatContext) (s3 : Sys σ) (hq : Quiet s3.log) :
    SetupSpec (open_codecs L apFmtCtxIn fmtOut s3) := by
  unfold open_codecs
  split
  · exact hq
  · rename_i dcd heq
    have hq1 := open_decoder_context_quiet L apFmtCtxIn AVMediaType.AVMEDIA_TYPE_VIDEO 0
      none none s3 hq dcd heq
    split
    · rename_i pCdcCtxIn hok hctx
      have hq2 := open_encoder_context_quiet L (some fmtOut) "libx264"
        (some (encoder_init pCdcCtxIn)) dcd.sys hq1
      simp only
      split
      · rename_i apCdcCtxOut fmtOut1 hok2 hctx2 hfmt2
        have htb := open_encoder_context_time_base L (some fmtOut) "libx264" pCdcCtxIn
          dcd.sys apCdcCtxOut hctx2
        split
        · simp [SetupSpec, Quiet_append_iff, Quiet_cons_iff, Quiet_nil, hq2,
            Event.isDecodeCall, Event.isEncodeCall]
        · simp [SetupSpec, Quiet_append_iff, Quiet_cons_iff, Quiet_nil, hq2,
            Event.isDecodeCall, Event.isEncodeCall, htb]
      · exact hq2
    · exact hq1

theorem open_output_file_quiet {σ : Type} (L : Lib σ) (fmtOut : AVFormatContext)
    (pathOut : String) (s2 : Sys σ) (hq : Quiet s2.log) :
    Quiet (open_output_file L fmtOut pathOut s2).2.log := by
  unfold open_output_file
  simp only
  split_ifs <;>
    simp [Quiet_append_iff, Quiet_cons_iff, Quiet_nil, hq, Event.isDecodeCall,
      Event.isEncodeCall]

theorem setup_spec {σ : Type} (L : Lib σ) (argv : List String) (w : σ) :
    SetupSpec (setup L argv w) := by
  unfold setup
  simp only
  split
  · simp [SetupSpec, Quiet_cons_iff, Quiet_nil, Event.isDecodeCall, Event.isEncodeCall]
  · split
    · simp [SetupSpec, Quiet_cons_iff, Quiet_nil, Event.isDecodeCall, Event.isEncodeCall]
    · rename_i pathIn _
      have hq1 := open_input_format_context_quiet L pathIn
        { world := w, log := [Event.read_argv 1] }
        (by simp [Quiet_cons_iff, Quiet_nil, Event.isDecodeCall, Event.isEncodeCall])
      split
      · rename_i x s1 heq
        rw [heq] at hq1
        exact hq1
      · rename_i apFmtCtxIn s1 heq
        rw [heq] at hq1
        simp only at hq1
        split
        · simp [SetupSpec, Quiet_append_iff, Quiet_cons_iff, Quiet_nil, hq1,
            Event.isDecodeCall, Event.isEncodeCall]
        · rename_i pathOut _
          have hq2 := open_output_format_context_quiet L pathOut
            { s1 with log := s1.log ++ [Event.read_argv 2] }
            (by simp [Quiet_append_iff, Quiet_cons_iff, Quiet_nil, hq1, Event.isDecodeCall,
                  Event.isEncodeCall])
          split
          · rename_i x s2 heq2
            rw [heq2] at hq2
            exact hq2
          · rename_i s2 heq2
            rw [heq2] at hq2
            exact hq2
          · rename_i fmtOut s2 heq2
            rw [heq2] at hq2
            simp only at hq2
            have hq3 := open_output_file_quiet L fmtOut pathOut s2 hq2
            split
            · rename_i ret s3 heq3
              rw [heq3] at hq3
              exact hq3
            · rename_i s3 heq3
              rw [heq3] at hq3
              exact open_codecs_spec L apFmtCtxIn fmtOut s3 hq3

theorem frame_submissions_of_quiet (log : List Event) (h : Quiet log) :
    frame_submissions log = [] := by
  unfold frame_submissions
  rw [List.filterMap_eq_nil_iff]
  intro e he
  have h1 := (h e he).2
  cases e <;> simp [Event.isEncodeCall] at h1 ⊢

theorem decoded_frames_of_quiet (log : List Event) (h : Quiet log) :
    decoded_frames log = [] := by
  unfold decoded_frames
  rw [List.filterMap_eq_nil_iff]
  intro e he
  have h1 := (h e he).1
  cases e <;> simp [Event.isDecodeCall] at h1 ⊢

theorem LoopInv_init : LoopInv [] [] none 0 where
  pts_accepted := by simp [accepted_of]
  counter := by simp [accepted_of, wrapInt64]
  retry := by
    intro pre a b post h _
    simp at h
  held_stamped := by intro f hf; simp at hf
  rejected_held := by intro a ha; simp at ha
  decoded := by simp [accepted_of]

theorem finish_keeps {σ : Type} (L : Lib σ) (apFmtCtxOut : AVFormatContext)
    (r : LoopFlow × DriverState σ) :
    frame_submissions (finish L apFmtCtxOut r).log = frame_submissions r.2.dec.log ∧
    decoded_frames (finish L apFmtCtxOut r).log = decoded_frames r.2.dec.log ∧
    encode_calls (finish L apFmtCtxOut r).log = encode_calls r.2.dec.log := by
  unfold finish
  split
  · simp only
    split_ifs <;>
      simp [frame_submissions, decoded_frames, encode_calls, List.filter_append,
        Event.isEncodeCall]
  · exact ⟨rfl, rfl, rfl⟩

/-- The invariant of the driver loop holds of the log of every run of main. -/
theorem main_inv {σ : Type} (L : Lib σ) (fuel dfuel : Nat) (argv : List String) (w : σ) :
    ∃ held tb, LoopInv (frame_submissions (main L fuel dfuel argv w).log)
      (decoded_frames (main L fuel dfuel argv w).log) held tb := by
  have hs := setup_spec L argv w
  unfold main
  rcases hsetup : setup L argv w with r | p
  · rw [hsetup] at hs
    simp only
    rw [frame_submissions_of_quiet r.log hs, decoded_frames_of_quiet r.log hs]
    exact ⟨none, 0, LoopInv_init⟩
  · rw [hsetup] at hs
    obtain ⟨hq, hnum⟩ := hs
    simp only
    obtain ⟨h1, h2, -⟩ := finish_keeps L p.apFmtCtxOut
      (driver_loop L p.apCdcCtxOut p.nStreamIdxIn dfuel fuel (driver_init p.sys))
    rw [h1, h2]
    have hinit : DriverInv (driver_init p.sys) := by
      unfold DriverInv driver_init
      simp only
      rw [frame_submissions_of_quiet p.sys.log hq, decoded_frames_of_quiet p.sys.log hq]
      exact LoopInv_init
    exact ⟨_, _, driver_loop_inv L p.apCdcCtxOut p.nStreamIdxIn dfuel hnum fuel
      (driver_init p.sys) hinit⟩

theorem held_frame_not_repumped {σ : Type} (L : Lib σ) (apCdcCtxOut : AVCodecContext)
    (nStreamIdxIn : Int) (dfuel : Nat) (st : DriverState σ) (f : AVFrame)
    (h : st.dec.inout_apFrameOut = some f) :
    decode_calls (driver_iteration L apCdcCtxOut nStreamIdxIn dfuel st).2.dec.log
      = decode_calls st.dec.log := by
  have h0 : ¬ (0 : Int) = AVERROR_EOF := by decide
  unfold driver_iteration next_frame
  rw [h]
  simp only
  unfold encode_frame
  rw [if_neg h0, if_neg (by decide), h]
  simp only
  split_ifs
  · rw [(receive_packet_keeps L apCdcCtxOut _).2.2.1]
    simp [decode_calls, List.filter_append, Event.isDecodeCall]
  · rw [(receive_packet_keeps L apCdcCtxOut _).2.2.1]
    simp [decode_calls, List.filter_append, Event.isDecodeCall]

/-! ## Claims about the driver loop of main -/

/-- C1: in every run of main, the k-th frame the encoder accepted (k counted from 0,
below 2^63, the range of the int64 counter) was submitted with pts equal to k, and the
submission that follows a rejected one (EAGAIN or any other negative result) is of the
same frame, unchanged, so with the same pts. -/
theorem accepted_frames_stamped_in_order {σ : Type} (L : Lib σ) (fuel dfuel : Nat)
    (argv : List String) (w : σ) :
    (∀ (k : Nat) (f : AVFrame),
        (accepted_frames (main L fuel dfuel argv w).log)[k]? = some f →
        k < 2 ^ 63 → f.pts = (k : Int)) ∧
    (∀ pre a b post,
        frame_submissions (main L fuel dfuel argv w).log = pre ++ a :: b :: post →
        a.2 < 0 → b.1 = a.1) := by
  obtain ⟨held, tb, inv⟩ := main_inv L fuel dfuel argv w
  refine ⟨?_, inv.retry⟩
  intro k f hk hlt
  have h1 : ((accepted_frames (main L fuel dfuel argv w).log).map fun f => f.pts)[k]?
      = some f.pts := by
    rw [List.getElem?_map, hk]; rfl
  unfold accepted_frames at h1
  rw [inv.pts_accepted, List.getElem?_map] at h1
  cases hr : (List.range (accepted_of (frame_submissions
      (main L fuel dfuel argv w).log)).length)[k]? with
  | none => rw [hr] at h1; simp at h1
  | some j =>
    rw [hr] at h1
    have hj : j = k := by
      rw [List.getElem?_eq_some_iff] at hr
      obtain ⟨hlen, hget⟩ := hr
      simpa using hget.symm
    subst hj
    simp only [Option.map_some', Option.some.injEq] at h1
    rw [← h1]
    exact wrapInt64_of_lt j hlt

/-- C1 at a concrete run: the first frame is rejected once with EAGAIN and resubmitted,
the second is accepted at once; the second accepted frame carries pts 1. -/
theorem accepted_frames_stamped_in_order_witness :
    (accepted_frames (main scriptedLib 4 2 argvInOut retryRun).log)[1]?
      = some (stamp_frame (clear_frame_timing (mkFrame 11 8)) 1) ∧
    (stamp_frame (clear_frame_timing (mkFrame 11 8)) 1).pts = ((1 : Nat) : Int) :=
  ⟨by decide,
   (accepted_frames_stamped_in_order scriptedLib 4 2 argvInOut retryRun).1 1
     (stamp_frame (clear_frame_timing (mkFrame 11 8)) 1) (by decide) (by norm_num)⟩

/-- C4: in every run of main the frames the encoder accepted are the frames the decoder
produced, in the same order, none dropped or repeated, except that the last decoded
frame may still be held (a frame whose last submission was rejected is held); and in
any iteration of the driver loop that starts with a held frame the decode stage is not
called, and a frame in hand is released in that iteration only if the encoder accepted
it there. -/
theorem accepted_frames_are_decoded_frames {σ : Type} (L : Lib σ) (fuel dfuel : Nat)
    (argv : List String) (w : σ) (apCdcCtxOut : AVCodecContext) (nStreamIdxIn : Int)
    (st : DriverState σ) :
    (∃ held : Option AVFrame,
        (decoded_frames (main L fuel dfuel argv w).log).map (fun f => f.data)
          = (accepted_frames (main L fuel dfuel argv w).log).map (fun f => f.data)
            ++ held.toList.map (fun f => f.data) ∧
        ∀ a, (frame_submissions (main L fuel dfuel argv w).log).getLast? = some a →
          a.2 < 0 → held = some a.1) ∧
    (∀ f, st.dec.inout_apFrameOut = some f →
        decode_calls (driver_iteration L apCdcCtxOut nStreamIdxIn dfuel st).2.dec.log
          = decode_calls st.dec.log) ∧
    (∀ f, (next_frame L nStreamIdxIn dfuel st).2.inout_apFrameOut = some f →
        (driver_iteration L apCdcCtxOut nStreamIdxIn dfuel st).2.dec.inout_apFrameOut = none →
        0 ≤ (L.avcodec_send_frame (some (stamp_frame f st.nTimebase))
              (next_frame L nStreamIdxIn dfuel st).2.world).1) := by
  refine ⟨?_, ?_, ?_⟩
  · obtain ⟨held, tb, inv⟩ := main_inv L fuel dfuel argv w
    exact ⟨held, inv.decoded, inv.rejected_held⟩
  · intro f hf
    exact held_frame_not_repumped L apCdcCtxOut nStreamIdxIn dfuel st f hf
  · intro f hf hrel
    have hcode : (next_frame L nStreamIdxIn dfuel st).1 = some 0 := by
      unfold next_frame at hf ⊢
      cases hheld : st.dec.inout_apFrameOut with
      | some g => rfl
      | none =>
        rw [hheld] at hf
        simp only at hf ⊢
        obtain ⟨evs, -, -, hres⟩ := get_next_decoder_frame_log L nStreamIdxIn dfuel st.dec
        rcases hres with ⟨hsame, -⟩ | ⟨raw, hret, -, -⟩
        · rw [hsame, hheld] at hf; simp at hf
        · exact hret
    unfold driver_iteration at hrel
    have hpair : next_frame L nStreamIdxIn dfuel st
        = (some 0, (next_frame L nStreamIdxIn dfuel st).2) := by
      rw [← hcode]
    rw [hpair] at hrel
    simp only at hrel
    unfold encode_frame at hrel
    rw [if_neg (by decide), if_neg (by decide), hf] at hrel
    simp only at hrel
    by_contra hneg
    rw [if_pos (by omega)] at hrel
    rw [(receive_packet_keeps L apCdcCtxOut _).2.2.2.1] at hrel
    simp at hrel

/-- C4 at a concrete run and a concrete iteration: over retryRun both decoded frames
are accepted, in order; the iteration that starts with the rejected frame held does not
call the decode stage and releases the frame on acceptance. -/
theorem accepted_frames_are_decoded_frames_witness :
    (decoded_frames (main scriptedLib 4 2 argvInOut retryRun).log).map (fun f => f.data)
      = [10, 11] ∧
    (accepted_frames (main scriptedLib 4 2 argvInOut retryRun).log).map (fun f => f.data)
      = [10, 11] ∧
    heldAfterRetry.dec.inout_apFrameOut
      = some (stamp_frame (clear_frame_timing (mkFrame 10 7)) 0) ∧
    decode_calls (driver_iteration scriptedLib scriptedEncoder 0 2 heldAfterRetry).2.dec.log
      = decode_calls heldAfterRetry.dec.log :=
  ⟨by decide, by decide, by decide,
   (accepted_frames_are_decoded_frames scriptedLib 4 2 argvInOut retryRun scriptedEncoder 0
      heldAfterRetry).2.1 (stamp_frame (clear_frame_timing (mkFrame 10 7)) 0) (by decide)⟩

/-- C10: when, in an iteration of the driver loop that holds no frame, the decode stage
returns a negative code other than AVERROR_EOF, the loop breaks in that iteration, and
neither that iteration nor the rest of main adds a call of avcodec_send_frame,
avcodec_receive_packet or av_interleaved_write_frame to the log. -/
theorem fatal_decode_stops_pipeline {σ : Type} (L : Lib σ) (apCdcCtxOut : AVCodecContext)
    (apFmtCtxOut : AVFormatContext) (nStreamIdxIn : Int) (dfuel fuel : Nat)
    (st : DriverState σ) (code : Int) (d : DecoderState σ)
    (hheld : st.dec.inout_apFrameOut = none)
    (hdec : get_next_decoder_frame L nStreamIdxIn dfuel st.dec = (some code, d))
    (hneg : code < 0) (hne : code ≠ AVERROR_EOF) :
    (driver_loop L apCdcCtxOut nStreamIdxIn dfuel (fuel + 1) st).1 = LoopFlow.brk ∧
    (driver_loop L apCdcCtxOut nStreamIdxIn dfuel (fuel + 1) st).2.dec = d ∧
    encode_calls (finish L apFmtCtxOut
        (driver_loop L apCdcCtxOut nStreamIdxIn dfuel (fuel + 1) st)).log
      = encode_calls st.dec.log := by
  have hit : driver_iteration L apCdcCtxOut nStreamIdxIn dfuel st
      = (LoopFlow.brk, { st with dec := d }) := by
    unfold driver_iteration next_frame
    rw [hheld]
    simp only
    rw [hdec]
    simp only
    unfold encode_frame
    rw [if_neg hne, if_pos hneg]
  have hloop : driver_loop L apCdcCtxOut nStreamIdxIn dfuel (fuel + 1) st
      = (LoopFlow.brk, { st with dec := d }) := by
    unfold driver_loop
    rw [hit]
  rw [hloop]
  refine ⟨rfl, rfl, ?_⟩
  rw [(finish_keeps L apFmtCtxOut _).2.2]
  obtain ⟨evs, hlog, hdc, -⟩ := get_next_decoder_frame_log L nStreamIdxIn dfuel st.dec
  rw [hdec] at hlog
  simp only at hlog ⊢
  rw [hlog]
  have h0 := encode_calls_of_decode_calls evs hdc
  simp only [encode_calls, List.filter_append] at h0 ⊢
  rw [h0, List.append_nil]

/-- C10 at a concrete iteration: the decoder fails with EINVAL on the first frame, the
decode stage returns AVERROR(EFAULT), and the loop breaks without any encoder call. -/
theorem fatal_decode_stops_pipeline_witness :
    (get_next_decoder_frame scriptedLib 0 2 (decoderStart fatalDecode)).1
      = some (AVERROR EFAULT) ∧
    (driver_loop scriptedLib scriptedEncoder 0 2 (0 + 1)
        (driver_init { world := fatalDecode, log := [] })).1 = LoopFlow.brk ∧
    encode_calls (finish scriptedLib tsOutput
        (driver_loop scriptedLib scriptedEncoder 0 2 (0 + 1)
          (driver_init { world := fatalDecode, log := [] }))).log = [] :=
  ⟨by decide,
   (fatal_decode_stops_pipeline scriptedLib scriptedEncoder tsOutput 0 2 0
      (driver_init { world := fatalDecode, log := [] }) (AVERROR EFAULT)
      (get_next_decoder_frame scriptedLib 0 2 (decoderStart fatalDecode)).2
      rfl rfl (by decide) (by decide)).1,
   (fatal_decode_stops_pipeline scriptedLib scriptedEncoder tsOutput 0 2 0
      (driver_init { world := fatalDecode, log := [] }) (AVERROR EFAULT)
      (get_next_decoder_frame scriptedLib 0 2 (decoderStart fatalDecode)).2
      rfl rfl (by decide) (by decide)).2.2⟩

/-- C5, evaluated on the code: the decoder fails with EINVAL on the first frame, the
decode stage returns AVERROR(EFAULT), the driver loop breaks, and main returns 0. -/
theorem fatal_decode_exits_zero :
    (main scriptedLib 3 3 argvInOut fatalDecode).outcome = Outcome.exit 0 ∧
    (main scriptedLib 3 3 argvInOut fatalDecode).log.drop 16
      = [Event.av_read_frame 0 (mkPacket 1 0 0),
         Event.avcodec_send_packet (some (mkPacket 1 0 0)) 0,
         Event.avcodec_receive_frame (AVERROR EINVAL) (mkFrame 0 0),
         Event.av_write_trailer,
         Event.avio_closep] := by
  refine ⟨?_, ?_⟩ <;> decide

/-- C6, evaluated on the code: with one path argument (argc = 2) main prints no usage
message; it reads argv[1], opens the input container, and then reads the null argv[2].
Line 423 tests `argc < 1`. -/
theorem one_argument_opens_input :
    (main scriptedLib 3 3 ["x264_cbr", "in.ts"] fatalDecode).log
      = [Event.read_argv 1, Event.avformat_open_input "in.ts" 0, Event.read_argv 2] ∧
    (main scriptedLib 3 3 ["x264_cbr", "in.ts"] fatalDecode).outcome = Outcome.undefined ∧
    (main scriptedLib 3 3 ["x264_cbr"] fatalDecode).log = [Event.read_argv 1] ∧
    (main scriptedLib 3 3 ["x264_cbr"] fatalDecode).outcome = Outcome.undefined := by
  refine ⟨?_, ?_, ?_, ?_⟩ <;> decide

/-- C8, evaluated on the code: the encoder rejects the frame with EINVAL; the loop does
not break, and the same frame is submitted again in each of the next two iterations. -/
theorem rejected_frame_is_resubmitted :
    frame_submissions (main scriptedLib 3 3 argvInOut fatalEncode).log
      = [(stamp_frame (clear_frame_timing (mkFrame 10 7)) 0, AVERROR EINVAL),
         (stamp_frame (clear_frame_timing (mkFrame 10 7)) 0, AVERROR EINVAL),
         (stamp_frame (clear_frame_timing (mkFrame 10 7)) 0, 0)] ∧
    (main scriptedLib 3 3 argvInOut fatalEncode).outcome = Outcome.running := by
  refine ⟨?_, ?_⟩ <;> decide

/-! ## Claims about open_decoder_context -/

/-- C12: when the stream finder keeps to its contract (an index it returns that is not
negative is an index of the container), open_decoder_context returns, and whatever the
stream index and the handle held on entry: if it returns false the index is -1 and the
handle is empty; if it returns true the index is the one the finder elected, which is
not negative, and the handle is not empty. -/
theorem open_decoder_context_atomic {σ : Type} (L : Lib σ)
    (in_pFmtCtx : Option AVFormatContext) (in_eMediaType : AVMediaType)
    (inout_nStreamidx : Int) (inout_apCdcCtx : Option AVCodecContext)
    (fnInitContext : Option (AVCodecContext → Bool × AVCodecContext)) (s : Sys σ)
    (hvalid : ∀ fmt, in_pFmtCtx = some fmt →
      0 ≤ L.av_find_best_stream fmt in_eMediaType (max inout_nStreamidx (-1)) s.world →
      (L.av_find_best_stream fmt in_eMediaType (max inout_nStreamidx (-1)) s.world).toNat
        < fmt.streams.length) :
    ∃ r, open_decoder_context L in_pFmtCtx in_eMediaType inout_nStreamidx inout_apCdcCtx
          fnInitContext s = some r ∧
      (r.ok = false → r.inout_nStreamidx = -1 ∧ r.inout_apCdcCtx = none) ∧
      (r.ok = true → 0 ≤ r.inout_nStreamidx ∧ r.inout_apCdcCtx.isSome = true ∧
        ∃ fmt, in_pFmtCtx = some fmt ∧
          r.inout_nStreamidx
            = L.av_find_best_stream fmt in_eMediaType (max inout_nStreamidx (-1)) s.world) := by
  cases in_pFmtCtx with
  | none => exact ⟨_, rfl, by simp, by simp⟩
  | some fmt =>
    have hv := hvalid fmt rfl
    unfold open_decoder_context
    simp only
    split
    · exact ⟨_, rfl, by simp, by simp⟩
    · rename_i hneg
      split
      · rename_i hnone
        exfalso
        have h1 := hv (by omega)
        rw [List.get?_eq_none] at hnone
        omega
      · repeat' split
        all_goals
          refine ⟨_, rfl, ?_, ?_⟩ <;> simp
        all_goals exact not_lt.mp hneg

/-- C12 at a concrete call: the index holds -5 and the handle a stale context on entry;
the container has one video stream, the call returns true with index 0 and a handle. -/
theorem open_decoder_context_atomic_witness :
    (open_decoder_context scriptedLib (some videoOnlyInput) AVMediaType.AVMEDIA_TYPE_VIDEO
        (-5) (some staleCodecContext) none oneFrameSys).map
        (fun r => (r.ok, r.inout_nStreamidx)) = some (true, 0) ∧
    ∃ r, open_decoder_context scriptedLib (some videoOnlyInput)
          AVMediaType.AVMEDIA_TYPE_VIDEO (-5) (some staleCodecContext) none oneFrameSys
          = some r ∧
      (r.ok = false → r.inout_nStreamidx = -1 ∧ r.inout_apCdcCtx = none) ∧
      (r.ok = true → 0 ≤ r.inout_nStreamidx ∧ r.inout_apCdcCtx.isSome = true ∧
        ∃ fmt, some videoOnlyInput = some fmt ∧
          r.inout_nStreamidx
            = scriptedLib.av_find_best_stream fmt AVMediaType.AVMEDIA_TYPE_VIDEO
                (max (-5) (-1)) oneFrameSys.world) :=
  ⟨by decide,
   open_decoder_context_atomic scriptedLib (some videoOnlyInput)
     AVMediaType.AVMEDIA_TYPE_VIDEO (-5) (some staleCodecContext) none oneFrameSys
     (fun fmt h => by cases h; decide)⟩

/-! ## Theorems: the packet filter of the decode stage -/

theorem submit_packet_filters {σ : Type} (L : Lib σ)
    (hread : ∀ w, (L.av_read_frame w).1 ≤ 0) (nStreamIdx : Int) (s : DecoderState σ)
    (hp : s.bPendingPkt = false) :
    ∃ evs, (submit_packet L nStreamIdx s).2.log = s.log ++ evs ∧
      submitted_packets evs
        = (read_packets evs).filter (fun p => decide (p.stream_index = nStreamIdx)) ∧
      released_packets evs
        = (read_packets evs).filter (fun p => decide (p.stream_index ≠ nStreamIdx)) ∧
      (submit_packet L nStreamIdx s).2.bPendingPkt = false := by
  have h0 := hread s.world
  unfold submit_packet
  simp only [hp, Bool.false_eq_true, if_false]
  by_cases h1 : (L.av_read_frame s.world).1 < 0
  · rw [if_pos h1]
    have h1b : ¬ 0 ≤ (L.av_read_frame s.world).1 := by omega
    exact ⟨[Event.av_read_frame (L.av_read_frame s.world).1 (L.av_read_frame s.world).2.1,
            Event.avcodec_send_packet none
              (L.avcodec_send_packet none (L.av_read_frame s.world).2.2).1], by simp,
      by simp [submitted_packets, read_packets, h1b],
      by simp [released_packets, read_packets, h1b], rfl⟩
  · rw [if_neg h1]
    have hz : (L.av_read_frame s.world).1 = 0 := by omega
    by_cases h2 : (L.av_read_frame s.world).2.1.stream_index = nStreamIdx
    · have hc : ¬ ((!false && (L.av_read_frame s.world).2.1.stream_index != nStreamIdx)
          = true) := by simp [h2]
      rw [if_neg hc]
      have hne : ¬ (((L.av_read_frame s.world).1 != 0) = true) := by simp [hz]
      rw [if_neg hne]
      exact ⟨[Event.av_read_frame (L.av_read_frame s.world).1 (L.av_read_frame s.world).2.1,
              Event.avcodec_send_packet (some (L.av_read_frame s.world).2.1)
                (L.avcodec_send_packet (some (L.av_read_frame s.world).2.1)
                  (L.av_read_frame s.world).2.2).1], by simp,
        by simp [submitted_packets, read_packets, hz, h2],
        by simp [released_packets, read_packets, hz, h2], rfl⟩
    · have hc : ((!false && (L.av_read_frame s.world).2.1.stream_index != nStreamIdx)
          = true) := by simp [h2]
      rw [if_pos hc]
      exact ⟨[Event.av_read_frame (L.av_read_frame s.world).1 (L.av_read_frame s.world).2.1,
              Event.av_packet_unref (L.av_read_frame s.world).2.1], by simp,
        by simp [submitted_packets, read_packets, hz, h2],
        by simp [released_packets, read_packets, hz, h2], rfl⟩

theorem receive_frame_filters {σ : Type} (L : Lib σ) (s : DecoderState σ) :
    ∃ evs, (receive_frame L s).2.log = s.log ++ evs ∧
      submitted_packets evs = [] ∧ released_packets evs = [] ∧ read_packets evs = [] ∧
      (receive_frame L s).2.bPendingPkt = s.bPendingPkt := by
  unfold receive_frame
  refine ⟨[Event.avcodec_receive_frame (L.avcodec_receive_frame s.world).1
        (L.avcodec_receive_frame s.world).2.1], ?_, by simp [submitted_packets],
        by simp [released_packets], by simp [read_packets], ?_⟩
  · simp only
    split_ifs <;> rfl
  · simp only
    split_ifs <;> rfl

theorem decoder_iteration_filters {σ : Type} (L : Lib σ)
    (hread : ∀ w, (L.av_read_frame w).1 ≤ 0) (nStreamIdx : Int) (s : DecoderState σ)
    (hp : s.bPendingPkt = false) :
    ∃ evs, (decoder_iteration L nStreamIdx s).2.log = s.log ++ evs ∧
      submitted_packets evs
        = (read_packets evs).filter (fun p => decide (p.stream_index = nStreamIdx)) ∧
      released_packets evs
        = (read_packets evs).filter (fun p => decide (p.stream_index ≠ nStreamIdx)) ∧
      (decoder_iteration L nStreamIdx s).2.bPendingPkt = false := by
  obtain ⟨evs1, hlog1, hsub1, hrel1, hflag1⟩ := submit_packet_filters L hread nStreamIdx s hp
  unfold decoder_iteration
  rcases hsp : submit_packet L nStreamIdx s with ⟨flow, s1⟩
  rw [hsp] at hlog1 hflag1
  cases flow with
  | skip => exact ⟨evs1, hlog1, hsub1, hrel1, hflag1⟩
  | ret code => exact ⟨evs1, hlog1, hsub1, hrel1, hflag1⟩
  | receive =>
    obtain ⟨evs2, hlog2, hsub2, hrel2, hread2, hflag2⟩ := receive_frame_filters L s1
    simp only at hlog1 hflag1 ⊢
    refine ⟨evs1 ++ evs2, by rw [hlog2, hlog1, List.append_assoc], ?_, ?_, by
      rw [hflag2, hflag1]⟩
    · simp only [submitted_packets, read_packets, List.filterMap_append,
        List.filter_append] at hsub1 hsub2 hread2 ⊢
      rw [hsub1, hsub2, hread2]; simp
    · simp only [released_packets, read_packets, List.filterMap_append,
        List.filter_append] at hrel1 hrel2 hread2 ⊢
      rw [hrel1, hrel2, hread2]; simp

theorem get_next_decoder_frame_filters {σ : Type} (L : Lib σ)
    (hread : ∀ w, (L.av_read_frame w).1 ≤ 0) (nStreamIdx : Int) (fuel : Nat) :
    ∀ s : DecoderState σ, s.bPendingPkt = false →
    ∃ evs, (get_next_decoder_frame L nStreamIdx fuel s).2.log = s.log ++ evs ∧
      submitted_packets evs
        = (read_packets evs).filter (fun p => decide (p.stream_index = nStreamIdx)) ∧
      released_packets evs
        = (read_packets evs).filter (fun p => decide (p.stream_index ≠ nStreamIdx)) ∧
      (get_next_decoder_frame L nStreamIdx fuel s).2.bPendingPkt = false := by
  induction fuel with
  | zero =>
    intro s hp
    exact ⟨[], by simp [get_next_decoder_frame],
      by simp [submitted_packets, read_packets],
      by simp [released_packets, read_packets], hp⟩
  | succ n ih =>
    intro s hp
    obtain ⟨evs1, hlog1, hsub1, hrel1, hflag1⟩ :=
      decoder_iteration_filters L hread nStreamIdx s hp
    unfold get_next_decoder_frame
    rcases hit : decoder_iteration L nStreamIdx s with ⟨r, s1⟩
    rw [hit] at hlog1 hflag1
    cases r with
    | some code => exact ⟨evs1, hlog1, hsub1, hrel1, hflag1⟩
    | none =>
      obtain ⟨evs2, hlog2, hsub2, hrel2, hflag2⟩ := ih s1 hflag1
      simp only at hlog1 ⊢
      refine ⟨evs1 ++ evs2, by rw [hlog2, hlog1, List.append_assoc], ?_, ?_, hflag2⟩
      · simp only [submitted_packets, read_packets, List.filterMap_append,
          List.filter_append] at hsub1 hsub2 ⊢
        rw [hsub1, hsub2]
      · simp only [released_packets, read_packets, List.filterMap_append,
          List.filter_append] at hrel1 hrel2 ⊢
        rw [hrel1, hrel2]

/-! ## Claims about the election in main and the packet filter -/

/-- C11, evaluated on the code: the input container has an audio stream at index 0 and
a video stream at index 1. Line 462 value-initialises nStreamIdxIn to 0, so
open_decoder_context asks the finder for stream 0 only: the election fails, main
returns 1 after the finder call. The same call with -1 on entry elects stream 1. -/
theorem video_behind_audio_not_elected :
    (main scriptedLib 3 3 argvInOut audioFirst).outcome = Outcome.exit 1 ∧
    (main scriptedLib 3 3 argvInOut audioFirst).log.getLast?
      = some (Event.av_find_best_stream AVMediaType.AVMEDIA_TYPE_VIDEO 0 (-1381258232)) ∧
    (open_decoder_context scriptedLib (some audioThenVideoInput)
        AVMediaType.AVMEDIA_TYPE_VIDEO 0 none none audioFirstSys).map
        (fun r => (r.ok, r.inout_nStreamidx)) = some (false, -1) ∧
    (open_decoder_context scriptedLib (some audioThenVideoInput)
        AVMediaType.AVMEDIA_TYPE_VIDEO (-1) none none audioFirstSys).map
        (fun r => (r.ok, r.inout_nStreamidx)) = some (true, 1) := by
  refine ⟨?_, ?_, ?_, ?_⟩ <;> decide

/-- C13: in a call of get_next_decoder_frame that starts with no packet pending, a
packet read with success whose stream index differs from the elected one is released at
once and the iteration starts over without submitting it, and one with the elected
index is submitted at once; and when av_read_frame keeps to its documented results (0
or a negative code) no packet becomes pending, the packets the call submits are
exactly the packets it read that carry the elected index, in the order read, and the
packets it releases are exactly the others. -/
theorem only_elected_packets_submitted {σ : Type} (L : Lib σ) (nStreamIdx : Int)
    (fuel : Nat) (s : DecoderState σ) (hp : s.bPendingPkt = false) :
    (0 ≤ (L.av_read_frame s.world).1 →
      (L.av_read_frame s.world).2.1.stream_index ≠ nStreamIdx →
      (submit_packet L nStreamIdx s).1 = SubmitFlow.skip ∧
      (submit_packet L nStreamIdx s).2.log
        = s.log ++ [Event.av_read_frame (L.av_read_frame s.world).1
                      (L.av_read_frame s.world).2.1,
                    Event.av_packet_unref (L.av_read_frame s.world).2.1]) ∧
    (0 ≤ (L.av_read_frame s.world).1 →
      (L.av_read_frame s.world).2.1.stream_index = nStreamIdx →
      (submit_packet L nStreamIdx s).2.log
        = s.log ++ [Event.av_read_frame (L.av_read_frame s.world).1
                      (L.av_read_frame s.world).2.1,
                    Event.avcodec_send_packet (some (L.av_read_frame s.world).2.1)
                      (L.avcodec_send_packet (some (L.av_read_frame s.world).2.1)
                        (L.av_read_frame s.world).2.2).1]) ∧
    ((∀ w, (L.av_read_frame w).1 ≤ 0) →
      ∃ evs, (get_next_decoder_frame L nStreamIdx fuel s).2.log = s.log ++ evs ∧
        submitted_packets evs
          = (read_packets evs).filter (fun p => decide (p.stream_index = nStreamIdx)) ∧
        released_packets evs
          = (read_packets evs).filter (fun p => decide (p.stream_index ≠ nStreamIdx)) ∧
        (get_next_decoder_frame L nStreamIdx fuel s).2.bPendingPkt = false) := by
  refine ⟨?_, ?_, ?_⟩
  · intro hret hne
    have h1 : ¬ (L.av_read_frame s.world).1 < 0 := by omega
    unfold submit_packet
    simp [hp, h1, hne]
  · intro hret heq
    have h1 : ¬ (L.av_read_frame s.world).1 < 0 := by omega
    unfold submit_packet
    simp only [hp, Bool.false_eq_true, if_false, if_neg h1]
    have hc : ¬ ((!false && (L.av_read_frame s.world).2.1.stream_index != nStreamIdx)
        = true) := by simp [heq]
    rw [if_neg hc]
    split_ifs <;> simp
  · intro hread
    exact get_next_decoder_frame_filters L hread nStreamIdx fuel s hp

/-- C13 at a concrete call: stream 1 is elected; three packets are read, the second of
stream 0; the first and the third are submitted, the second is released. -/
theorem only_elected_packets_submitted_witness :
    (decoderStart mixedStreams).bPendingPkt = false ∧
    read_packets (get_next_decoder_frame contractLib 1 3 (decoderStart mixedStreams)).2.log
      = [mkPacket 1 1 0, mkPacket 2 0 0, mkPacket 3 1 1] ∧
    submitted_packets
        (get_next_decoder_frame contractLib 1 3 (decoderStart mixedStreams)).2.log
      = [mkPacket 1 1 0, mkPacket 3 1 1] ∧
    released_packets
        (get_next_decoder_frame contractLib 1 3 (decoderStart mixedStreams)).2.log
      = [mkPacket 2 0 0] ∧
    ∃ evs, (get_next_decoder_frame contractLib 1 3 (decoderStart mixedStreams)).2.log
        = (decoderStart mixedStreams).log ++ evs ∧
      submitted_packets evs
        = (read_packets evs).filter (fun p => decide (p.stream_index = 1)) ∧
      released_packets evs
        = (read_packets evs).filter (fun p => decide (p.stream_index ≠ 1)) ∧
      (get_next_decoder_frame contractLib 1 3 (decoderStart mixedStreams)).2.bPendingPkt
        = false :=
  ⟨rfl, by decide, by decide, by decide,
   (only_elected_packets_submitted contractLib 1 3 (decoderStart mixedStreams) rfl).2.2
     (fun _ => inf_le_right)⟩

end X264Cbr
